import Mathlib

/-!
Verification of the Basis Smart Panel integration against its specification.

The Python sources are shallowly embedded: dynamically-typed values flowing
through the integration (GraphQL responses, coordinator snapshots) are
modelled by `PyVal`; Python dictionary subscripting (`d[k]`, raising
`KeyError`), `dict.get` with defaults, truthiness and iteration are modelled
by executable functions on `PyVal`; code that can raise runs in
`Except String`.
-/

namespace BasisPanel

/-- A dynamically-typed Python value, as produced by the GraphQL client and
passed around by the integration (JSON-shaped data). Dictionaries are
association lists with (assumed unique) string keys, first binding wins. -/
inductive PyVal where
  | none
  | bool (b : Bool)
  | int (n : Int)
  | str (s : String)
  | list (xs : List PyVal)
  | dict (kvs : List (String × PyVal))

instance : Inhabited PyVal := ⟨PyVal.none⟩

mutual

/-- Python `==` on the values above: structural equality. -/
def PyVal.beq : PyVal → PyVal → Bool
  | .none, .none => true
  | .bool a, .bool b => a == b
  | .int a, .int b => a == b
  | .str a, .str b => a == b
  | .list xs, .list ys => beqElems xs ys
  | .dict xs, .dict ys => beqPairs xs ys
  | _, _ => false

/-- Python `==` on lists, elementwise. -/
def beqElems : List PyVal → List PyVal → Bool
  | [], [] => true
  | x :: xs, y :: ys => PyVal.beq x y && beqElems xs ys
  | _, _ => false

/-- Python `==` on dicts (as ordered association lists). -/
def beqPairs : List (String × PyVal) → List (String × PyVal) → Bool
  | [], [] => true
  | (k₁, v₁) :: xs, (k₂, v₂) :: ys => k₁ == k₂ && PyVal.beq v₁ v₂ && beqPairs xs ys
  | _, _ => false

end

/-- Python truthiness: `None`, `False`, `0`, `""` and empty containers are
falsy, everything else truthy. -/
def PyVal.truthy : PyVal → Bool
  | .none => false
  | .bool b => b
  | .int n => n != 0
  | .str s => s != ""
  | .list xs => !xs.isEmpty
  | .dict kvs => !kvs.isEmpty

/-- Raw key lookup in a dict value (no exception semantics). -/
def PyVal.lookup? : PyVal → String → Option PyVal
  | .dict kvs, k => kvs.lookup k
  | _, _ => Option.none

/-- Python subscript `d[k]`: `KeyError` when the key is absent, a
`TypeError` when the receiver is not a dict. -/
def PyVal.item (v : PyVal) (k : String) : Except String PyVal :=
  match v with
  | .dict kvs =>
    match kvs.lookup k with
    | some x => .ok x
    | _ => .error ("KeyError: " ++ k)
  | _ => .error "TypeError: value is not subscriptable by string"

/-- Python `d.get(k, default)`: the default when the key is absent; an
`AttributeError` when the receiver is not a dict. -/
def PyVal.get (v : PyVal) (k : String) (d : PyVal) : Except String PyVal :=
  match v with
  | .dict kvs => .ok ((kvs.lookup k).getD d)
  | _ => .error "AttributeError: value has no attribute get"

/-- Python `d.get(k)` with no default argument: `None` when absent. -/
def PyVal.getN (v : PyVal) (k : String) : Except String PyVal :=
  v.get k .none

/-- Python `for x in v`: list elements, dict keys, characters of a string;
`TypeError` otherwise. -/
def PyVal.iterElems : PyVal → Except String (List PyVal)
  | .list xs => .ok xs
  | .dict kvs => .ok (kvs.map fun kv => .str kv.1)
  | .str s => .ok (s.data.map fun c => .str (String.singleton c))
  | _ => .error "TypeError: value is not iterable"

/-- Python subscript `v[0]`: `IndexError` on an empty sequence, `TypeError`
on a non-sequence. -/
def PyVal.index0 : PyVal → Except String PyVal
  | .list [] => .error "IndexError: list index out of range"
  | .list (x :: _) => .ok x
  | .str s =>
    match s.data with
    | [] => .error "IndexError: string index out of range"
    | c :: _ => .ok (.str (String.singleton c))
  | _ => .error "TypeError: value is not indexable"

/-- Python `str(v)` as used by f-string interpolation. Container rendering
is abbreviated (no claim in this development depends on how a list or dict
interpolates into a string). -/
def PyVal.pyStr : PyVal → String
  | .none => "None"
  | .bool true => "True"
  | .bool false => "False"
  | .int n => toString n
  | .str s => s
  | .list _ => "[...]"
  | .dict _ => "\x7b...\x7d"

/-- Python `f"{v:02d}"`: zero-pad an integer to width 2; `bool` is an `int`
subtype in Python; any other operand raises. -/
def fmt02d : PyVal → Except String String
  | .int n => .ok (if 0 ≤ n ∧ n < 10 then "0" ++ toString n else toString n)
  | .bool b => .ok (if b then "01" else "00")
  | _ => .error "ValueError: invalid format operand"

/-- Python `m.get(k, default)` for the module-level string-keyed constant
maps (`LABEL_NAME_MAP`, `LABEL_ICON_MAP`); the key looked up is a dynamic
value: a non-string hashable key (`None`, a bool, an int) misses and
yields the default, while an unhashable key (a list or a dict) makes
`dict.get` raise `TypeError`. -/
def strMapGet (m : List (String × String)) (k : PyVal) (d : PyVal) : Except String PyVal :=
  match k with
  | .str s =>
    .ok (match m.lookup s with
         | some v => .str v
         | _ => d)
  | .list _ => .error "TypeError: unhashable type"
  | .dict _ => .error "TypeError: unhashable type"
  | _ => .ok d

/-! ## Constants (const.py) -/

/-- `DEFAULT_MODEL = "GEN1"` from const.py, as the Python value it is used
as in `_async_register_switchboard_devices`. -/
def DEFAULT_MODEL : PyVal := .str "GEN1"

/-- `LABEL_NAME_MAP` from const.py. -/
def LABEL_NAME_MAP : List (String × String) :=
  [("spare", "Spare"), ("power", "Power"), ("lights", "Lights"),
   ("range", "Range"), ("oven", "Oven"), ("hob", "Hob"),
   ("airCon", "Air Conditioning"), ("hvac", "HVAC"),
   ("hwc", "Hot Water Cylinder"), ("ufh", "Underfloor Heating"),
   ("evCharger", "EV Charger"), ("pool", "Pool"), ("spa", "Spa"),
   ("waterPump", "Water Pump"), ("septicPump", "Septic Pump"),
   ("alarm", "Alarm"), ("solar", "Solar")]

/-- `LABEL_ICON_MAP` from const.py. -/
def LABEL_ICON_MAP : List (String × String) :=
  [("spare", "mdi:help-circle"), ("power", "mdi:flash"),
   ("lights", "mdi:lightbulb"), ("range", "mdi:stove"),
   ("oven", "mdi:stove"), ("hob", "mdi:pot-steam"),
   ("airCon", "mdi:snowflake"), ("hvac", "mdi:air-conditioner"),
   ("hwc", "mdi:water-boiler"), ("ufh", "mdi:radiator"),
   ("evCharger", "mdi:ev-station"), ("pool", "mdi:pool"),
   ("spa", "mdi:hot-tub"), ("waterPump", "mdi:water-pump"),
   ("septicPump", "mdi:pump"), ("alarm", "mdi:alarm-light"),
   ("solar", "mdi:solar-power")]

/-! ## API client (api.py)

`BasisAPI.get_available_switchboards` issues the discovery query and then
flattens the response.  The flattening loops are embedded as structural
recursions over the iterated lists (the Python `for` loop appending to an
accumulator builds the same list). -/

/-- Inner loop of `get_available_switchboards`: one entry per board of a
site, `board["serial"]` required (KeyError when absent), `site_id` and
`connected` defaulted. -/
def parseSiteBoards (siteId : PyVal) : List PyVal → Except String (List PyVal)
  | [] => .ok []
  | board :: rest => do
    let serial ← board.item "serial"
    let connV ← board.get "connectivity" (.dict [])
    let connected ← connV.get "connected" (.bool false)
    let tail ← parseSiteBoards siteId rest
    .ok (.dict [("serial", serial), ("site_id", siteId), ("connected", connected)] :: tail)

/-- Outer loop of `get_available_switchboards` over the sites list. -/
def parseSites : List PyVal → Except String (List PyVal)
  | [] => .ok []
  | site :: rest => do
    let siteId ← site.getN "id"
    let boardsV ← site.get "switchboards" (.list [])
    let boards ← boardsV.iterElems
    let here ← parseSiteBoards siteId boards
    let tail ← parseSites rest
    .ok (here ++ tail)

/-- Response flattening of `BasisAPI.get_available_switchboards` applied to
the raw GraphQL query result. -/
def get_available_switchboards (result : PyVal) : Except String (List PyVal) := do
  let sitesOuter ← result.get "sites" (.dict [])
  let sitesV ← sitesOuter.get "sites" (.list [])
  let sites ← sitesV.iterElems
  parseSites sites

/-! ## Coordinators (coordinator.py) -/

/-- Python `x in s` for a set of values, deciding membership with `==`. -/
def pyMem (x : PyVal) (l : List PyVal) : Bool :=
  l.any fun y => PyVal.beq y x

/-- The set comprehension `{board["serial"] for board in switchboards}`
(raising when a board lacks `"serial"`). -/
def extractSerials : List PyVal → Except String (List PyVal)
  | [] => .ok []
  | b :: rest => do
    let s ← b.item "serial"
    let tail ← extractSerials rest
    .ok (s :: tail)

/-- One update of `BoardsDiscoveryCoordinator._async_update_data`, given the
prior `_known_serials` and the switchboard list returned by
`get_available_switchboards`.  Returns the log lines emitted, the value
published as coordinator data, and the new `_known_serials` (a list standing
for the Python set: every use of these sets is membership or emptiness, so
duplicates are immaterial). -/
def discoveryUpdate (knownSerials : List PyVal) (switchboards : List PyVal) :
    Except String (List String × List PyVal × List PyVal) := do
  let currentSerials ← extractSerials switchboards
  let newSerials := currentSerials.filter (fun s => !(pyMem s knownSerials))
  let logLines := if newSerials.isEmpty then [] else ["Discovered new switchboards"]
  .ok (logLines, switchboards, currentSerials)

/-- A local (timezone-attached) Python `datetime` as returned by
`dt_util.now()`; only the fields the energy coordinator touches. -/
structure PyDateTime where
  year : Int
  month : Nat
  day : Nat
  hour : Nat
  minute : Nat
  second : Nat
  microsecond : Nat
deriving Repr, DecidableEq

/-- Zero-padded decimal rendering used by `datetime.isoformat`. -/
def padNat (width : Nat) (n : Nat) : String :=
  let s := toString n
  if s.length < width then String.mk (List.replicate (width - s.length) '0') ++ s else s

/-- Python `datetime.isoformat()` (date and time part; the fixed local
timezone suffix is the same constant string on every call and is omitted,
which keeps the rendering injective on the times compared here). -/
def PyDateTime.isoformat (t : PyDateTime) : String :=
  padNat 4 t.year.toNat ++ "-" ++ padNat 2 t.month ++ "-" ++ padNat 2 t.day ++ "T" ++
    padNat 2 t.hour ++ ":" ++ padNat 2 t.minute ++ ":" ++ padNat 2 t.second ++
    (if t.microsecond = 0 then "" else "." ++ padNat 6 t.microsecond)

/-- `now.replace(hour=0, minute=0, second=0, microsecond=0)`. -/
def PyDateTime.replaceMidnight (t : PyDateTime) : PyDateTime :=
  { t with hour := 0, minute := 0, second := 0, microsecond := 0 }

/-- `now.replace(day=1, hour=0, minute=0, second=0, microsecond=0)`. -/
def PyDateTime.replaceMonthStart (t : PyDateTime) : PyDateTime :=
  { t with day := 1, hour := 0, minute := 0, second := 0, microsecond := 0 }

/-- A range query issued by the energy coordinator:
`get_switchboard_energy_usage(serial, start_time)`. -/
structure EnergyQuery where
  serial : String
  startTime : String
deriving Repr, DecidableEq

/-- One update of `EnergyStatsCoordinator._async_update_data` for a board,
given the poll-time local time `now` and the API response function
(serial and start time to raw GraphQL result).  Returns the queries issued
(in order) and the published result, or the exception raised. -/
def energyUpdateData (serial : String) (now : PyDateTime) (api : String → String → PyVal) :
    List EnergyQuery × Except String PyVal :=
  let startOfToday := now.replaceMidnight
  let startOfMonth := now.replaceMonthStart
  let todayData := api serial startOfToday.isoformat
  let monthData := api serial startOfMonth.isoformat
  (⟨serial, startOfToday.isoformat⟩ :: [⟨serial, startOfMonth.isoformat⟩],
   do
    let tsw ← todayData.get "switchboard" (.dict [])
    let todayUsage ← tsw.get "totalSwitchboardEnergyUsage" (.dict [])
    let msw ← monthData.get "switchboard" (.dict [])
    let monthUsage ← msw.get "totalSwitchboardEnergyUsage" (.dict [])
    let ti ← todayUsage.getN "importKwh"
    let te ← todayUsage.getN "exportKwh"
    let mi ← monthUsage.getN "importKwh"
    let me ← monthUsage.getN "exportKwh"
    .ok (.dict [("today", .dict [("import_kwh", ti), ("export_kwh", te)]),
                ("month", .dict [("import_kwh", mi), ("export_kwh", me)])]))

/-! ## Presentation entities (switch.py, sensor.py, binary_sensor.py)

An entity instance holds the fields its `__init__` copies out of the
subcircuit dict; every property getter is a function of those fields and of
the coordinator's current snapshot (`self.coordinator.data`). -/

/-- The per-entity state captured by `BasisCircuitSwitch.__init__` (and by
the subcircuit sensors, which store the same fields). -/
structure CircuitEntity where
  switchboardSerial : String
  subcircuitSerial : PyVal
  subcircuitNumber : PyVal

/-- Loop body of `_get_subcircuit`: find the subcircuit whose `"serial"`
equals the stored one (Python `==`); `subcircuit["serial"]` raises when
absent. -/
def findSubcircuit (target : PyVal) : List PyVal → Except String (Option PyVal)
  | [] => .ok Option.none
  | sub :: rest => do
    let serial ← sub.item "serial"
    if PyVal.beq serial target then .ok (some sub) else findSubcircuit target rest

/-- `_get_subcircuit` (identical in `BasisCircuitSwitch` and the subcircuit
sensors): `None` when the snapshot is falsy, else scan
`data.get("subcircuits", [])`. -/
def getSubcircuit (data : PyVal) (target : PyVal) : Except String (Option PyVal) :=
  if !data.truthy then .ok Option.none
  else do
    let subsV ← data.get "subcircuits" (.list [])
    let subs ← subsV.iterElems
    findSubcircuit target subs

namespace BasisCircuitSwitch

/-- `BasisCircuitSwitch.name`.  Python evaluates the second argument of
`LABEL_NAME_MAP.get(label_key, subcircuit["config"]["label"])` eagerly, so
the subscripts in the default run even when `label_key` is in the map. -/
def name (e : CircuitEntity) (data : PyVal) : Except String String := do
  let sub? ← getSubcircuit data e.subcircuitSerial
  match sub? with
  | some sub =>
    if sub.truthy then do
      let config ← sub.item "config"
      let labelKey ← config.get "label" (.str "spare")
      let config' ← sub.item "config"
      let dflt ← config'.item "label"
      let friendly ← strMapGet LABEL_NAME_MAP labelKey dflt
      let num ← fmt02d e.subcircuitNumber
      .ok ("[" ++ num ++ "] " ++ friendly.pyStr)
    else do
      let num ← fmt02d e.subcircuitNumber
      .ok ("[" ++ num ++ "] Circuit")
  | _ => do
    let num ← fmt02d e.subcircuitNumber
    .ok ("[" ++ num ++ "] Circuit")

/-- `BasisCircuitSwitch.icon`. -/
def icon (e : CircuitEntity) (data : PyVal) : Except String String := do
  let sub? ← getSubcircuit data e.subcircuitSerial
  match sub? with
  | some sub =>
    if sub.truthy then do
      let config ← sub.item "config"
      let labelKey ← config.get "label" (.str "spare")
      let icn ← strMapGet LABEL_ICON_MAP labelKey (.str "mdi:power-socket")
      .ok icn.pyStr
    else .ok "mdi:power-socket"
  | _ => .ok "mdi:power-socket"

/-- `BasisCircuitSwitch.is_on`: `liveState.state == "LIVE"`, `None` without
a matching subcircuit. -/
def is_on (e : CircuitEntity) (data : PyVal) : Except String PyVal := do
  let sub? ← getSubcircuit data e.subcircuitSerial
  match sub? with
  | some sub =>
    if sub.truthy then do
      let liveState ← sub.get "liveState" (.dict [])
      let st ← liveState.getN "state"
      .ok (.bool (PyVal.beq st (.str "LIVE")))
    else .ok .none
  | _ => .ok .none

/-- `BasisCircuitSwitch.available`: last update success, truthy snapshot,
then `connectivity.get("connected", False)` returned as-is. -/
def available (lastUpdateSuccess : Bool) (data : PyVal) : Except String PyVal :=
  if !lastUpdateSuccess then .ok (.bool false)
  else if !data.truthy then .ok (.bool false)
  else do
    let connectivity ← data.get "connectivity" (.dict [])
    connectivity.get "connected" (.bool false)

end BasisCircuitSwitch

namespace BasisSubcircuitPowerSensor

/-- `BasisSubcircuitPowerSensor.name` (same eager-default pattern as the
switch name, with a `" Power"` suffix). -/
def name (e : CircuitEntity) (data : PyVal) : Except String String := do
  let sub? ← getSubcircuit data e.subcircuitSerial
  match sub? with
  | some sub =>
    if sub.truthy then do
      let config ← sub.item "config"
      let labelKey ← config.get "label" (.str "spare")
      let config' ← sub.item "config"
      let dflt ← config'.item "label"
      let friendly ← strMapGet LABEL_NAME_MAP labelKey dflt
      let num ← fmt02d e.subcircuitNumber
      .ok ("[" ++ num ++ "] " ++ friendly.pyStr ++ " Power")
    else do
      let num ← fmt02d e.subcircuitNumber
      .ok ("[" ++ num ++ "] Power")
  | _ => do
    let num ← fmt02d e.subcircuitNumber
    .ok ("[" ++ num ++ "] Power")

/-- `BasisSubcircuitPowerSensor.native_value`:
`subcircuit.get("liveState", {}).get("power")`. -/
def native_value (e : CircuitEntity) (data : PyVal) : Except String PyVal := do
  let sub? ← getSubcircuit data e.subcircuitSerial
  match sub? with
  | some sub =>
    if sub.truthy then do
      let liveState ← sub.get "liveState" (.dict [])
      liveState.getN "power"
    else .ok .none
  | _ => .ok .none

end BasisSubcircuitPowerSensor

namespace BasisConnectivitySensor

/-- `BasisConnectivitySensor.extra_state_attributes` from binary_sensor.py:
attributes added only for truthy timestamp / disconnect reason. -/
def extra_state_attributes (data : PyVal) : Except String PyVal :=
  if !data.truthy then .ok (.dict [])
  else do
    let connectivity ← data.get "connectivity" (.dict [])
    let ts ← connectivity.getN "updatedTimestamp"
    let attrs₁ ←
      if ts.truthy then do
        let v ← connectivity.item "updatedTimestamp"
        pure [("last_seen", v)]
      else pure []
    let reason ← connectivity.getN "disconnectReason"
    let attrs₂ ←
      if reason.truthy then do
        let v ← connectivity.item "disconnectReason"
        pure [("disconnect_reason", v)]
      else pure []
    .ok (.dict (attrs₁ ++ attrs₂))

end BasisConnectivitySensor

/-! ### Switch platform setup (switch.py `async_setup_entry`) -/

/-- `BasisCircuitSwitch.__init__` applied to a subcircuit dict:
`subcircuit["serial"]` and `subcircuit["number"]` are required subscripts. -/
def mkCircuitSwitch (boardSerial : String) (sub : PyVal) : Except String CircuitEntity := do
  let serial ← sub.item "serial"
  let number ← sub.item "number"
  .ok ⟨boardSerial, serial, number⟩

/-- Inner loop of the switch `async_setup_entry`: skip subcircuits whose
label is `"spare"` or whose `standbyLocked` is truthy, construct a
`BasisCircuitSwitch` for the rest. -/
def switchEntitiesFor (boardSerial : String) : List PyVal → Except String (List CircuitEntity)
  | [] => .ok []
  | sub :: rest => do
    let config ← sub.get "config" (.dict [])
    let label ← config.get "label" (.str "")
    let locked ← config.get "standbyLocked" (.bool false)
    if PyVal.beq label (.str "spare") || locked.truthy then
      switchEntitiesFor boardSerial rest
    else do
      let e ← mkCircuitSwitch boardSerial sub
      let tail ← switchEntitiesFor boardSerial rest
      .ok (e :: tail)

/-- Per-board body of the switch `async_setup_entry`: boards with a falsy
snapshot are skipped with a warning. -/
def switchSetupForBoard (boardSerial : String) (data : PyVal) : Except String (List CircuitEntity) :=
  if !data.truthy then .ok []
  else do
    let subsV ← data.get "subcircuits" (.list [])
    let subs ← subsV.iterElems
    switchEntitiesFor boardSerial subs

/-- The switch `async_setup_entry` over the coordinator map (serial to
current snapshot, in insertion order). -/
def switchSetupEntry : List (String × PyVal) → Except String (List CircuitEntity)
  | [] => .ok []
  | (serial, data) :: rest => do
    let here ← switchSetupForBoard serial data
    let tail ← switchSetupEntry rest
    .ok (here ++ tail)

/-! ## Reconciliation (custom_components __init__.py)

`_async_handle_boards_change` mutates the per-entry coordinator dicts, the
device registry and the platform set.  Board serials are strings (the
device registry stores them as identifier strings and the discovery entries
carry them under `"serial"`); the only fields of `boards_coordinator.data`
the reconciliation reads are those serials, so the environment carries the
serial list directly.  Sets of serials are lists read up to membership. -/

/-- The mutable state `_async_handle_boards_change` operates on:
the two coordinator dicts of `hass.data` (serial to current coordinator
data, insertion-ordered), the device-registry serials for this config
entry, and whether the entity platforms are currently set up. -/
structure RecState where
  coords : List (String × PyVal)
  energy : List (String × PyVal)
  registry : List String
  platformsLoaded : Bool

/-- The reconciliation run's inputs: the just-published discovery serials
and the outcome of a first refresh (`async_config_entry_first_refresh`) of
each coordinator kind, per serial — `Except.error` means the initial fetch
failed and the refresh raised. -/
structure RecEnv where
  boards : List String
  fetchBoard : String → Except Unit PyVal
  fetchEnergy : String → Except Unit PyVal

/-- Observable actions of a reconciliation run, in order. -/
inductive RecEvent where
  | unloadPlatforms
  | popCoordinators (serial : String)
  | removeDevice (serial : String)
  | deviceMissing (serial : String)
  | createCoordinators (serial : String)
  | registerDevice (serial : String) (model : PyVal) (swVersion : PyVal) (hwVersion : PyVal)
  | reloadPlatforms

/-- `removed_serials = registry_serials - current_serials`. -/
def removedSerials (st : RecState) (boards : List String) : List String :=
  st.registry.filter fun s => !(decide (s ∈ boards))

/-- `new_serials = current_serials - coordinator_serials`. -/
def addedSerials (st : RecState) (boards : List String) : List String :=
  boards.filter fun s => !(decide (s ∈ st.coords.map Prod.fst))

/-- Python `dict[key] = value`: replace in place, or append a new binding. -/
def setKey (m : List (String × PyVal)) (k : String) (v : PyVal) : List (String × PyVal) :=
  if (m.lookup k).isSome then m.map (fun p => if p.1 = k then (k, v) else p)
  else m ++ [(k, v)]

/-- Body of the `removed_serials` loop for one serial: pop both
coordinators, then delete the device record if one is found (a missing
record is logged, not raised). -/
def removeOne (s : String) (st : RecState) : RecState × List RecEvent :=
  let st₁ : RecState :=
    { st with coords := st.coords.filter fun p => !(decide (p.1 = s)),
              energy := st.energy.filter fun p => !(decide (p.1 = s)) }
  if s ∈ st₁.registry then
    ({ st₁ with registry := st₁.registry.filter fun r => !(decide (r = s)) },
     [RecEvent.popCoordinators s, RecEvent.removeDevice s])
  else (st₁, [RecEvent.popCoordinators s, RecEvent.deviceMissing s])

/-- The `removed_serials` loop. -/
def processRemovals : List String → RecState → RecState × List RecEvent
  | [], st => (st, [])
  | s :: rest, st =>
    let (st₂, here) := removeOne s st
    let (st₃, tail) := processRemovals rest st₂
    (st₃, here ++ tail)

/-- The `new_serials` loop: first refresh of the switchboard coordinator,
store it, first refresh of the energy coordinator, store it.  A failed
first refresh raises out of the whole handler, leaving the mutations made
so far in place (the returned flag is `false`). -/
def processAdditions (env : RecEnv) : List String → RecState → RecState × List RecEvent × Bool
  | [], st => (st, [], true)
  | s :: rest, st =>
    match env.fetchBoard s with
    | .error _ => (st, [], false)
    | .ok data =>
      let st₁ : RecState := { st with coords := setKey st.coords s data }
      match env.fetchEnergy s with
      | .error _ => (st₁, [], false)
      | .ok edata =>
        let st₂ : RecState := { st₁ with energy := setKey st₁.energy s edata }
        let (st₃, tail, ok) := processAdditions env rest st₂
        (st₃, RecEvent.createCoordinators s :: tail, ok)

/-- `_async_register_switchboard_devices`: for each discovered board with a
coordinator holding truthy data, upsert a device keyed by serial; model and
versions are projected from the snapshot, with `model` missing or equal to
`"unknown"` replaced by `DEFAULT_MODEL`.  The `[0]` subscript on
`get("subcircuits", [{}])` can raise `IndexError`. -/
def registerDevices : List String → List (String × PyVal) → List String →
    Except String (List String × List RecEvent)
  | [], _, registry => .ok (registry, [])
  | serial :: rest, coords, registry =>
    match coords.lookup serial with
    | some data =>
      if data.truthy then do
        let model ← data.get "model" DEFAULT_MODEL
        let subsV ← data.get "subcircuits" (.list [.dict []])
        let first ← subsV.index0
        let config ← first.get "config" (.dict [])
        let hwVersion ← config.get "version" (.str "Unknown")
        let model := if PyVal.beq model (.str "unknown") then DEFAULT_MODEL else model
        let swVersion ← data.getN "version"
        let registry' := if serial ∈ registry then registry else registry ++ [serial]
        let (registry'', tail) ← registerDevices rest coords registry'
        .ok (registry'', RecEvent.registerDevice serial model swVersion hwVersion :: tail)
      else registerDevices rest coords registry
    | _ => registerDevices rest coords registry

/-- `_async_handle_boards_change`: compute removed/added, return untouched
when both are empty, otherwise unload platforms, process removals, process
additions (re-registering devices only when boards were added), and reload
platforms.  The boolean is `false` when a raise aborted the handler. -/
def handleBoardsChange (st : RecState) (env : RecEnv) : RecState × List RecEvent × Bool :=
  let removed := removedSerials st env.boards
  let added := addedSerials st env.boards
  if removed.isEmpty && added.isEmpty then (st, [], true)
  else
    let st₁ : RecState := { st with platformsLoaded := false }
    let (st₂, evs₂) := processRemovals removed st₁
    match processAdditions env added st₂ with
    | (st₃, evs₃, false) => (st₃, RecEvent.unloadPlatforms :: (evs₂ ++ evs₃), false)
    | (st₃, evs₃, true) =>
      if added.isEmpty then
        ({ st₃ with platformsLoaded := true },
         RecEvent.unloadPlatforms :: (evs₂ ++ evs₃ ++ [RecEvent.reloadPlatforms]), true)
      else
        match registerDevices env.boards st₃.coords st₃.registry with
        | .ok (registry', evs₄) =>
          ({ st₃ with registry := registry', platformsLoaded := true },
           RecEvent.unloadPlatforms :: (evs₂ ++ evs₃ ++ evs₄ ++ [RecEvent.reloadPlatforms]), true)
        | .error _ => (st₃, RecEvent.unloadPlatforms :: (evs₂ ++ evs₃), false)

/-! ## Specification-side definitions

Shape predicates describing responses/snapshots of the wire contract's
type-correct shape (fields may be absent; present fields have their GraphQL
types), and spec-worded projections used to compare against the embedded
code. -/

/-- A switchboard snapshot of the type-correct shape: `None`/falsy, or a
dict whose `subcircuits` (when present) is a list of well-shaped subcircuit
dicts and whose `connectivity` (when present) is a dict.  A well-shaped
subcircuit carries its `serial` and a `config` dict whose `label` is a
string (its GraphQL type); `liveState`, when present, is a dict. -/
def subcircuitWF (sub : PyVal) : Bool :=
  match sub with
  | .dict kvs =>
    (kvs.lookup "serial").isSome &&
    (match kvs.lookup "config" with
     | some (.dict ckvs) =>
       (match ckvs.lookup "label" with
        | some (.str _) => true
        | _ => false)
     | _ => false) &&
    (match kvs.lookup "liveState" with
     | some (.dict _) => true
     | some _ => false
     | _ => true)
  | _ => false

/-- See `subcircuitWF`. -/
def snapshotWF (data : PyVal) : Bool :=
  match data with
  | .dict kvs =>
    (match kvs.lookup "subcircuits" with
     | some (.list subs) => subs.all subcircuitWF
     | some _ => false
     | _ => true) &&
    (match kvs.lookup "connectivity" with
     | some (.dict _) => true
     | some _ => false
     | _ => true)
  | d => !d.truthy

/-- Snapshot shape needed by the `available` getter alone: falsy, or a dict
whose `connectivity` (when present) is a dict whose `connected` (when
present) is a bool. -/
def availWF (data : PyVal) : Bool :=
  match data with
  | .dict kvs =>
    match kvs.lookup "connectivity" with
    | some (.dict ckvs) =>
      (match ckvs.lookup "connected" with
       | some (.bool _) => true
       | some _ => false
       | _ => true)
    | some _ => false
    | _ => true
  | d => !d.truthy

/-- The spec's availability condition: the snapshot's
`connectivity.connected` field is present and `True`. -/
def specConnected (data : PyVal) : Bool :=
  match data.lookup? "connectivity" with
  | some (.dict ckvs) =>
    match ckvs.lookup "connected" with
    | some (.bool b) => b
    | _ => false
  | _ => false

/-- Energy range-query response of the type-correct shape: a dict whose
`switchboard` (when present) is a dict whose `totalSwitchboardEnergyUsage`
(when present) is a dict. -/
def energyRespWF (r : PyVal) : Bool :=
  match r with
  | .dict kvs =>
    match kvs.lookup "switchboard" with
    | some (.dict skvs) =>
      (match skvs.lookup "totalSwitchboardEnergyUsage" with
       | some (.dict _) => true
       | some _ => false
       | _ => true)
    | some _ => false
    | _ => true
  | _ => false

/-- Spec-worded projection of a usage field out of an energy response:
the nested `switchboard.totalSwitchboardEnergyUsage.<field>` value, absent
levels giving `None`. -/
def specUsageField (r : PyVal) (field : String) : PyVal :=
  match r.lookup? "switchboard" with
  | some sw =>
    match sw.lookup? "totalSwitchboardEnergyUsage" with
    | some (.dict ukvs) => (ukvs.lookup field).getD .none
    | _ => .none
  | _ => .none

/-- Spec: "start of today": today's date at local midnight. -/
def specStartOfToday (now : PyDateTime) : PyDateTime :=
  ⟨now.year, now.month, now.day, 0, 0, 0, 0⟩

/-- Spec: "start of month": day 1 of the current month at local midnight. -/
def specStartOfMonth (now : PyDateTime) : PyDateTime :=
  ⟨now.year, now.month, 1, 0, 0, 0, 0⟩

/-- Discovery response of the type-correct shape: a dict whose `sites`
(when present) is a dict whose inner `sites` (when present) is a list of
well-shaped site dicts. -/
def boardEntryWF (b : PyVal) : Bool :=
  match b with
  | .dict kvs =>
    match kvs.lookup "connectivity" with
    | some (.dict _) => true
    | some _ => false
    | _ => true
  | _ => false

/-- See `boardEntryWF`. -/
def siteWF (s : PyVal) : Bool :=
  match s with
  | .dict kvs =>
    match kvs.lookup "switchboards" with
    | some (.list bs) => bs.all boardEntryWF
    | some _ => false
    | _ => true
  | _ => false

/-- See `boardEntryWF`. -/
def discoveryWF (r : PyVal) : Bool :=
  match r with
  | .dict kvs =>
    match kvs.lookup "sites" with
    | some (.dict okvs) =>
      (match okvs.lookup "sites" with
       | some (.list sites) => sites.all siteWF
       | some _ => false
       | _ => true)
    | some _ => false
    | _ => true
  | _ => false

/-- The site list of a discovery response (spec-side accessor). -/
def discoverySitesOf (r : PyVal) : List PyVal :=
  match r.lookup? "sites" with
  | some outer =>
    match outer.lookup? "sites" with
    | some (.list sites) => sites
    | _ => []
  | _ => []

/-- The board list of a site (spec-side accessor). -/
def siteBoardsOf (site : PyVal) : List PyVal :=
  match site.lookup? "switchboards" with
  | some (.list bs) => bs
  | _ => []

/-- Whether every board entry of the response carries the required
`"serial"` field. -/
def allBoardsHaveSerial (r : PyVal) : Bool :=
  (discoverySitesOf r).all fun site =>
    (siteBoardsOf site).all fun b => (b.lookup? "serial").isSome

/-- Spec-worded `connected` of a discovery board entry: the nested
`connectivity.connected`, defaulting to `False` when either is absent. -/
def specBoardConnected (b : PyVal) : PyVal :=
  match b.lookup? "connectivity" with
  | some (.dict ckvs) => (ckvs.lookup "connected").getD (.bool false)
  | _ => .bool false

/-- Spec-worded discovery entry: exactly the keys `serial`, `site_id`,
`connected`; a missing site id gives a null `site_id`, missing
`connectivity`/`connected` give `connected = False`. -/
def specDiscoveryEntry (siteId : PyVal) (b : PyVal) : PyVal :=
  .dict [("serial", (b.lookup? "serial").getD .none),
         ("site_id", siteId),
         ("connected", specBoardConnected b)]

/-- Spec-worded flattening of a discovery response. -/
def specDiscoveryEntries (r : PyVal) : List PyVal :=
  (discoverySitesOf r).foldr
    (fun site acc =>
      ((siteBoardsOf site).map (specDiscoveryEntry ((site.lookup? "id").getD .none))) ++ acc)
    []

/-- Spec-worded model defaulting: the registered model is the snapshot's
reported `model`, except that a missing model or the string `"unknown"` is
replaced by `DEFAULT_MODEL`. -/
def specModelPredicate (data model : PyVal) : Prop :=
  ((data.lookup? "model" = Option.none ∨ data.lookup? "model" = some (.str "unknown")) →
      model = .str "GEN1") ∧
  (∀ m, data.lookup? "model" = some m → m ≠ .str "unknown" → model = m)

/-! ## Concrete instances used by counterexamples and witnesses -/

/-- A subcircuit whose `config` is present but lacks the `"label"` field. -/
def c4Subcircuit : PyVal :=
  .dict [("serial", .str "s1"), ("number", .int 3), ("config", .dict [])]

/-- A snapshot holding only `c4Subcircuit`. -/
def c4Snapshot : PyVal := .dict [("subcircuits", .list [c4Subcircuit])]

/-- The switch entity for `c4Subcircuit`. -/
def c4Entity : CircuitEntity := ⟨"SB1", .str "s1", .int 3⟩

/-- A well-shaped snapshot with one labelled subcircuit (witness input). -/
def c4GoodSnapshot : PyVal :=
  .dict [("subcircuits", .list
           [.dict [("serial", .str "s1"), ("number", .int 3),
                   ("config", .dict [("label", .str "pool")]),
                   ("liveState", .dict [("state", .str "LIVE"), ("power", .int 41)])]]),
         ("connectivity", .dict [("connected", .bool true)])]

/-- Reconciliation state before the aborted pass: board `"B"` registered
with live coordinators, platforms loaded. -/
def c3State : RecState :=
  ⟨[("B", .dict [("model", .str "GEN1")])], [("B", .dict [])], ["B"], true⟩

/-- Discovery now reports `{"A", "B"}` and the first refresh for the newly
added `"A"` fails. -/
def c3Env : RecEnv :=
  ⟨["A", "B"],
   fun s => if s = "A" then .error () else .ok (.dict [("model", .str "GEN1")]),
   fun _ => .ok (.dict [])⟩

/-- Reconciliation state for the idempotence witness: board `"A"` present. -/
def c2State : RecState :=
  ⟨[("A", .dict [("model", .str "m1")])], [("A", .dict [])], ["A"], true⟩

/-- Discovery reports `{"A", "B"}` and all first refreshes succeed. -/
def c2Env : RecEnv :=
  ⟨["A", "B"],
   fun _ => .ok (.dict [("model", .str "unknown")]),
   fun _ => .ok (.dict [("today", .dict [])])⟩

/-- The state after the successful run on `c2State`/`c2Env`. -/
def c2Result : RecState :=
  { coords := [("A", .dict [("model", .str "m1")]), ("B", .dict [("model", .str "unknown")])],
    energy := [("A", .dict []), ("B", .dict [("today", .dict [])])],
    registry := ["A", "B"],
    platformsLoaded := true }

/-- The events of the successful run on `c2State`/`c2Env`. -/
def c2Events : List RecEvent :=
  [.unloadPlatforms, .createCoordinators "B",
   .registerDevice "A" (.str "m1") .none (.str "Unknown"),
   .registerDevice "B" (.str "GEN1") .none (.str "Unknown"),
   .reloadPlatforms]

/-- Coordinator map for the switch-setup witness: one board with a spare,
a standby-locked and an ordinary subcircuit. -/
def c5Coords : List (String × PyVal) :=
  [("SB1", .dict [("subcircuits", .list
     [.dict [("serial", .str "sp"), ("number", .int 1),
             ("config", .dict [("label", .str "spare")])],
      .dict [("serial", .str "lk"), ("number", .int 2),
             ("config", .dict [("label", .str "hwc"), ("standbyLocked", .bool true)])],
      .dict [("serial", .str "ok"), ("number", .int 3),
             ("config", .dict [("label", .str "pool")])]])])]

/-- The single entity the switch setup creates from `c5Coords`. -/
def c5Entity : CircuitEntity := ⟨"SB1", .str "ok", .int 3⟩

/-- Discovery response for the parsing witness: one site without an id,
one board without connectivity. -/
def c6Response : PyVal :=
  .dict [("sites", .dict [("sites", .list
    [.dict [("switchboards", .list
       [.dict [("serial", .str "A")],
        .dict [("serial", .str "B"),
               ("connectivity", .dict [("connected", .bool true)])]])]])])]

/-- Poll-time local time for the energy witness. -/
def c7Now : PyDateTime := ⟨2026, 10, 12, 13, 45, 59, 123⟩

/-- Energy API responses for the witness: today's response carries only
an imported-energy value, the month response is an empty usage dict. -/
def c7Api : String → String → PyVal := fun _ t =>
  if t = "2026-10-12T00:00:00" then
    .dict [("switchboard", .dict [("totalSwitchboardEnergyUsage",
      .dict [("importKwh", .int 7)])])]
  else
    .dict [("switchboard", .dict [("totalSwitchboardEnergyUsage", .dict [])])]

/-- Discovery board list for the known-serials witness. -/
def c9Boards : List PyVal := [.dict [("serial", .str "A")]]

/-- Snapshot for the availability witness: connected board. -/
def c10Snapshot : PyVal := .dict [("connectivity", .dict [("connected", .bool true)])]

/-! ## Helper lemmas -/

/-- Python `== "s"` agrees with propositional equality to `.str s`. -/
theorem beq_str_iff (v : PyVal) (s : String) : PyVal.beq v (.str s) = true ↔ v = .str s := by
  cases v <;> simp [PyVal.beq]

/-- A successful `d.get(k, default)` means the receiver is a dict and the
result is the looked-up value or the default. -/
theorem get_ok_inv {v : PyVal} {k : String} {d x : PyVal} (h : v.get k d = .ok x) :
    ∃ kvs, v = .dict kvs ∧ x = (kvs.lookup k).getD d := by
  cases v <;> simp [PyVal.get] at h
  exact ⟨_, rfl, h.symm⟩

/-- Membership in a successfully extracted serial set. -/
theorem extractSerials_mem {boards out : List PyVal}
    (h : extractSerials boards = .ok out) (s : PyVal) :
    s ∈ out ↔ ∃ b ∈ boards, b.item "serial" = .ok s := by
  induction boards generalizing out with
  | nil =>
    simp [extractSerials] at h
    subst h; simp
  | cons b rest ih =>
    cases hb : b.item "serial" with
    | error e => simp [extractSerials, hb, Bind.bind, Except.bind] at h
    | ok v =>
      cases ht : extractSerials rest with
      | error e => simp [extractSerials, hb, ht, Bind.bind, Except.bind] at h
      | ok tail =>
        simp [extractSerials, hb, ht, Bind.bind, Except.bind] at h
        subst h
        constructor
        · intro hs
          rcases List.mem_cons.mp hs with h1 | h1
          · exact ⟨b, by simp, by rw [hb, h1]⟩
          · rcases (ih ht).mp h1 with ⟨b', hb', hbs⟩
            exact ⟨b', List.mem_cons_of_mem _ hb', hbs⟩
        · rintro ⟨b', hb', hbs⟩
          rcases List.mem_cons.mp hb' with h1 | h1
          · subst h1; rw [hb] at hbs
            cases hbs; exact List.mem_cons_self _ _
          · exact List.mem_cons_of_mem _ ((ih ht).mpr ⟨b', h1, hbs⟩)

/-- Scanning well-shaped subcircuits never raises, and a hit is an element
of the list. -/
theorem findSubcircuit_wf (t : PyVal) (subs : List PyVal)
    (hwf : ∀ s ∈ subs, subcircuitWF s = true) :
    ∃ r, findSubcircuit t subs = .ok r ∧ ∀ s, r = some s → s ∈ subs := by
  induction subs with
  | nil => exact ⟨Option.none, rfl, by simp⟩
  | cons sub rest ih =>
    have hsub := hwf sub (List.mem_cons_self _ _)
    obtain ⟨kvs, hk⟩ : ∃ kvs, sub = PyVal.dict kvs := by
      cases sub <;> simp [subcircuitWF] at hsub
      exact ⟨_, rfl⟩
    subst hk
    simp only [subcircuitWF, Bool.and_eq_true] at hsub
    obtain ⟨⟨hser, -⟩, -⟩ := hsub
    obtain ⟨v, hv⟩ := Option.isSome_iff_exists.mp hser
    have hitem : (PyVal.dict kvs).item "serial" = .ok v := by simp [PyVal.item, hv]
    obtain ⟨r, hr, hmem⟩ := ih fun s hs => hwf s (List.mem_cons_of_mem _ hs)
    by_cases hb : PyVal.beq v t
    · exact ⟨some (PyVal.dict kvs), by simp [findSubcircuit, hitem, hb, Bind.bind, Except.bind],
        fun s hs => by cases hs; exact List.mem_cons_self _ _⟩
    · refine ⟨r, ?_, fun s hs => List.mem_cons_of_mem _ (hmem s hs)⟩
      simp only [findSubcircuit, hitem, Bind.bind, Except.bind]
      simp [hb, hr]

/-- `_get_subcircuit` never raises on a well-shaped snapshot, and a hit is
a well-shaped subcircuit. -/
theorem getSubcircuit_wf (data t : PyVal) (hwf : snapshotWF data = true) :
    ∃ r, getSubcircuit data t = .ok r ∧ ∀ s, r = some s → subcircuitWF s = true := by
  by_cases ht : data.truthy
  · obtain ⟨kvs, hk⟩ : ∃ kvs, data = PyVal.dict kvs := by
      cases data with
      | dict kvs => exact ⟨kvs, rfl⟩
      | none => simp [PyVal.truthy] at ht
      | bool b => simp [snapshotWF, PyVal.truthy] at hwf ht; simp [hwf] at ht
      | int n => simp [snapshotWF, PyVal.truthy] at hwf ht; simp [hwf] at ht
      | str s => simp [snapshotWF, PyVal.truthy] at hwf ht; simp [hwf] at ht
      | list xs => simp [snapshotWF, PyVal.truthy] at hwf ht; simp [hwf] at ht
    subst hk
    simp only [snapshotWF, Bool.and_eq_true] at hwf
    obtain ⟨hsubs, -⟩ := hwf
    cases hsl : kvs.lookup "subcircuits" with
    | none =>
      refine ⟨Option.none, ?_, by simp⟩
      simp [getSubcircuit, ht, PyVal.get, hsl, PyVal.iterElems, findSubcircuit,
        Bind.bind, Except.bind]
    | some subsV =>
      cases subsV with
      | list subs =>
        rw [hsl] at hsubs
        have hall : ∀ s ∈ subs, subcircuitWF s = true := by
          intro s hs
          exact List.all_eq_true.mp hsubs s hs
        obtain ⟨r, hr, hmem⟩ := findSubcircuit_wf t subs hall
        refine ⟨r, ?_, fun s hs => hall s (hmem s hs)⟩
        simp [getSubcircuit, ht, PyVal.get, hsl, PyVal.iterElems, Bind.bind, Except.bind, hr]
      | none => rw [hsl] at hsubs; simp at hsubs
      | bool b => rw [hsl] at hsubs; simp at hsubs
      | int n => rw [hsl] at hsubs; simp at hsubs
      | str s => rw [hsl] at hsubs; simp at hsubs
      | dict d => rw [hsl] at hsubs; simp at hsubs
  · exact ⟨Option.none, by simp [getSubcircuit, ht], by simp⟩

/-- A well-shaped subcircuit is a non-empty dict, hence truthy, its
`config` chain succeeds, and the label is a string. -/
theorem subcircuitWF_parts {sub : PyVal} (h : subcircuitWF sub = true) :
    sub.truthy = true ∧
    (∃ ckvs lv, sub.item "config" = .ok (.dict ckvs) ∧
      ckvs.lookup "label" = some (.str lv)) ∧
    (∃ lsv, sub.get "liveState" (.dict []) = .ok lsv ∧ ∃ lkvs, lsv = .dict lkvs) := by
  obtain ⟨kvs, hk⟩ : ∃ kvs, sub = PyVal.dict kvs := by
    cases sub <;> simp [subcircuitWF] at h
    exact ⟨_, rfl⟩
  subst hk
  simp only [subcircuitWF, Bool.and_eq_true] at h
  obtain ⟨⟨hser, hcfg⟩, hls⟩ := h
  refine ⟨?_, ?_, ?_⟩
  · obtain ⟨v, hv⟩ := Option.isSome_iff_exists.mp hser
    cases kvs with
    | nil => simp [List.lookup] at hv
    | cons p rest => simp [PyVal.truthy]
  · cases hc : kvs.lookup "config" with
    | none => rw [hc] at hcfg; simp at hcfg
    | some cv =>
      cases cv with
      | dict ckvs =>
        simp only [hc] at hcfg
        cases hlb : ckvs.lookup "label" with
        | none => rw [hlb] at hcfg; simp at hcfg
        | some lblv =>
          cases lblv with
          | str lv => exact ⟨ckvs, lv, by simp [PyVal.item, hc], hlb⟩
          | none => rw [hlb] at hcfg; simp at hcfg
          | bool b => rw [hlb] at hcfg; simp at hcfg
          | int n => rw [hlb] at hcfg; simp at hcfg
          | list xs => rw [hlb] at hcfg; simp at hcfg
          | dict d => rw [hlb] at hcfg; simp at hcfg
      | none => rw [hc] at hcfg; simp at hcfg
      | bool b => rw [hc] at hcfg; simp at hcfg
      | int n => rw [hc] at hcfg; simp at hcfg
      | str s => rw [hc] at hcfg; simp at hcfg
      | list xs => rw [hc] at hcfg; simp at hcfg
  · cases hl : kvs.lookup "liveState" with
    | none => exact ⟨.dict [], by simp [PyVal.get, hl], [], rfl⟩
    | some lv =>
      cases lv with
      | dict lkvs => exact ⟨.dict lkvs, by simp [PyVal.get, hl], lkvs, rfl⟩
      | none => rw [hl] at hls; simp at hls
      | bool b => rw [hl] at hls; simp at hls
      | int n => rw [hl] at hls; simp at hls
      | str s => rw [hl] at hls; simp at hls
      | list xs => rw [hl] at hls; simp at hls

/-- A false `List.all` exhibits a failing element. -/
theorem all_eq_false_exists {α : Type} {l : List α} {p : α → Bool}
    (h : l.all p = false) : ∃ x ∈ l, p x = false := by
  by_contra hc
  push_neg at hc
  have hall : l.all p = true := List.all_eq_true.mpr fun x hx => by
    cases hpx : p x with
    | false => exact absurd hpx (hc x hx)
    | true => rfl
  rw [hall] at h
  cases h

/-- A successful association-list lookup means the key is among the keys. -/
theorem lookup_mem_keys {m : List (String × PyVal)} {k : String}
    (hs : (m.lookup k).isSome = true) : k ∈ m.map Prod.fst := by
  induction m with
  | nil => simp [List.lookup] at hs
  | cons q rest ihm =>
    obtain ⟨k₁, v₁⟩ := q
    cases hb : (k == k₁) with
    | true =>
      have hkk : k = k₁ := by simpa using hb
      simp [hkk]
    | false =>
      simp only [List.lookup, hb] at hs
      simp [ihm hs]

/-- Keys after a Python dict assignment. -/
theorem setKey_mem_keys (m : List (String × PyVal)) (k₀ : String) (v : PyVal) (k : String) :
    k ∈ (setKey m k₀ v).map Prod.fst ↔ k ∈ m.map Prod.fst ∨ k = k₀ := by
  unfold setKey
  split
  case isTrue hs =>
    have hmap : (m.map fun p => if p.1 = k₀ then (k₀, v) else p).map Prod.fst =
        m.map Prod.fst := by
      rw [List.map_map]
      apply List.map_congr_left
      intro p _
      by_cases hpe : p.1 = k₀ <;> simp [hpe]
    rw [hmap]
    constructor
    · exact Or.inl
    · rintro (hk | hk)
      · exact hk
      · exact hk ▸ lookup_mem_keys hs
  case isFalse hs =>
    simp [List.map_append, List.mem_append, eq_comm]

/-- Effect of removing one board: platforms untouched, the serial gone from
the registry and the coordinator keys, no platform reload emitted. -/
theorem removeOne_spec (s : String) (st : RecState) :
    (removeOne s st).1.platformsLoaded = st.platformsLoaded ∧
    (∀ k, k ∈ (removeOne s st).1.registry ↔ k ∈ st.registry ∧ k ≠ s) ∧
    (∀ k, k ∈ (removeOne s st).1.coords.map Prod.fst ↔ k ∈ st.coords.map Prod.fst ∧ k ≠ s) ∧
    RecEvent.reloadPlatforms ∉ (removeOne s st).2 := by
  refine ⟨?_, ?_, ?_, ?_⟩
  · by_cases hs : s ∈ st.registry <;> simp [removeOne, hs]
  · intro k
    by_cases hs : s ∈ st.registry
    · have hre : (removeOne s st).1.registry =
          st.registry.filter fun r => !(decide (r = s)) := by
        simp [removeOne, hs]
      rw [hre]
      simp [List.mem_filter]
    · have hre : (removeOne s st).1.registry = st.registry := by
        simp [removeOne, hs]
      rw [hre]
      constructor
      · intro hk
        exact ⟨hk, fun hke => hs (hke ▸ hk)⟩
      · exact fun hk => hk.1
  · intro k
    have hco : (removeOne s st).1.coords =
        st.coords.filter fun p => !(decide (p.1 = s)) := by
      by_cases hs : s ∈ st.registry <;> simp [removeOne, hs]
    rw [hco]
    simp only [List.mem_map, List.mem_filter, Bool.not_eq_eq_eq_not, Bool.not_true,
      decide_eq_false_iff_not]
    constructor
    · rintro ⟨p, ⟨hp, hpne⟩, hpk⟩
      exact ⟨⟨p, hp, hpk⟩, hpk ▸ hpne⟩
    · rintro ⟨⟨p, hp, hpk⟩, hne⟩
      exact ⟨p, ⟨hp, hpk ▸ hne⟩, hpk⟩
  · by_cases hs : s ∈ st.registry <;> simp [removeOne, hs]

/-- Effect of the whole removal loop. -/
theorem processRemovals_spec (rs : List String) (st : RecState) :
    (processRemovals rs st).1.platformsLoaded = st.platformsLoaded ∧
    (∀ k, k ∈ (processRemovals rs st).1.registry ↔ k ∈ st.registry ∧ k ∉ rs) ∧
    (∀ k, k ∈ (processRemovals rs st).1.coords.map Prod.fst ↔
        k ∈ st.coords.map Prod.fst ∧ k ∉ rs) ∧
    RecEvent.reloadPlatforms ∉ (processRemovals rs st).2 := by
  induction rs generalizing st with
  | nil => simp [processRemovals]
  | cons s rest ih =>
    obtain ⟨h1, h2, h3, h4⟩ := removeOne_spec s st
    obtain ⟨g1, g2, g3, g4⟩ := ih (removeOne s st).1
    have hstep : processRemovals (s :: rest) st =
        ((processRemovals rest (removeOne s st).1).1,
         (removeOne s st).2 ++ (processRemovals rest (removeOne s st).1).2) := by
      simp [processRemovals]
    rw [hstep]
    refine ⟨g1.trans h1, ?_, ?_, ?_⟩
    · intro k
      rw [g2 k]
      constructor
      · rintro ⟨hk, hkr⟩
        obtain ⟨hk', hkne⟩ := (h2 k).mp hk
        exact ⟨hk', by simp [hkne, hkr]⟩
      · rintro ⟨hk, hkr⟩
        simp only [List.mem_cons, not_or] at hkr
        exact ⟨(h2 k).mpr ⟨hk, hkr.1⟩, hkr.2⟩
    · intro k
      rw [g3 k]
      constructor
      · rintro ⟨hk, hkr⟩
        obtain ⟨hk', hkne⟩ := (h3 k).mp hk
        exact ⟨hk', by simp [hkne, hkr]⟩
      · rintro ⟨hk, hkr⟩
        simp only [List.mem_cons, not_or] at hkr
        exact ⟨(h3 k).mpr ⟨hk, hkr.1⟩, hkr.2⟩
    · simp only [List.mem_append, not_or]
      exact ⟨h4, g4⟩

/-- Effect of the addition loop: registry and platform flag untouched; the
coordinator keys grow only by processed serials, and exactly by the whole
list when the loop completed; a reload is never emitted. -/
theorem processAdditions_spec (env : RecEnv) (ss : List String) (st : RecState) :
    (processAdditions env ss st).1.platformsLoaded = st.platformsLoaded ∧
    (processAdditions env ss st).1.registry = st.registry ∧
    (∀ k, k ∈ (processAdditions env ss st).1.coords.map Prod.fst →
        k ∈ st.coords.map Prod.fst ∨ k ∈ ss) ∧
    ((processAdditions env ss st).2.2 = true →
        ∀ k, k ∈ (processAdditions env ss st).1.coords.map Prod.fst ↔
          (k ∈ st.coords.map Prod.fst ∨ k ∈ ss)) ∧
    RecEvent.reloadPlatforms ∉ (processAdditions env ss st).2.1 := by
  induction ss generalizing st with
  | nil => simp [processAdditions]
  | cons s rest ih =>
    cases hf : env.fetchBoard s with
    | error e =>
      simp only [processAdditions, hf]
      refine ⟨trivial, trivial, fun k hk => Or.inl hk, ?_, by simp⟩
      intro habs
      simp at habs
    | ok data =>
      cases he : env.fetchEnergy s with
      | error e =>
        simp only [processAdditions, hf, he]
        refine ⟨trivial, trivial, ?_, ?_, by simp⟩
        · intro k hk
          rcases (setKey_mem_keys st.coords s data k).mp hk with hk' | hk'
          · exact Or.inl hk'
          · exact Or.inr (by simp [hk'])
        · intro habs
          simp at habs
      | ok edata =>
        have hstep : processAdditions env (s :: rest) st =
            ((processAdditions env rest
                { st with coords := setKey st.coords s data,
                          energy := setKey st.energy s edata }).1,
             RecEvent.createCoordinators s ::
               (processAdditions env rest
                { st with coords := setKey st.coords s data,
                          energy := setKey st.energy s edata }).2.1,
             (processAdditions env rest
                { st with coords := setKey st.coords s data,
                          energy := setKey st.energy s edata }).2.2) := by
          simp [processAdditions, hf, he]
        obtain ⟨g1, g2, g3, g4, g5⟩ := ih
          { st with coords := setKey st.coords s data,
                    energy := setKey st.energy s edata }
        rw [hstep]
        refine ⟨g1, g2, ?_, ?_, ?_⟩
        · intro k hk
          rcases g3 k hk with hk' | hk'
          · rcases (setKey_mem_keys st.coords s data k).mp hk' with hk'' | hk''
            · exact Or.inl hk''
            · exact Or.inr (by simp [hk''])
          · exact Or.inr (List.mem_cons_of_mem _ hk')
        · intro hok k
          rw [g4 hok k, setKey_mem_keys]
          constructor
          · rintro ((hk | hk) | hk)
            · exact Or.inl hk
            · exact Or.inr (by simp [hk])
            · exact Or.inr (List.mem_cons_of_mem _ hk)
          · rintro (hk | hk)
            · exact Or.inl (Or.inl hk)
            · rcases List.mem_cons.mp hk with hk' | hk'
              · exact Or.inl (Or.inr hk')
              · exact Or.inr hk'
        · simp only [List.mem_cons, not_or]
          exact ⟨by simp, g5⟩

/-- Device re-registration only adds serials of discovered boards. -/
theorem registerDevices_registry (boards : List String) (coords : List (String × PyVal))
    (registry : List String) {registry' : List String} {evs : List RecEvent}
    (h : registerDevices boards coords registry = .ok (registry', evs)) :
    ∀ k ∈ registry', k ∈ registry ∨ k ∈ boards := by
  induction boards generalizing registry registry' evs with
  | nil =>
    simp [registerDevices] at h
    intro k hk
    exact Or.inl (h.1 ▸ hk)
  | cons s rest ih =>
    have step : ∀ reg₂ : List String,
        (∀ k ∈ reg₂, k ∈ registry ∨ k = s) →
        registerDevices rest coords reg₂ = .ok (registry', evs.tail) ∨
        registerDevices rest coords reg₂ = .ok (registry', evs) →
        ∀ k ∈ registry', k ∈ registry ∨ k ∈ s :: rest := by
      rintro reg₂ hreg (hrec | hrec) <;>
      · intro k hk
        rcases ih reg₂ hrec k hk with hk' | hk'
        · rcases hreg k hk' with hk'' | hk''
          · exact Or.inl hk''
          · exact Or.inr (by simp [hk''])
        · exact Or.inr (List.mem_cons_of_mem _ hk')
    cases hl : coords.lookup s with
    | none =>
      have h' : registerDevices rest coords registry = .ok (registry', evs) := by
        simpa [registerDevices, hl] using h
      exact step registry (fun k hk => Or.inl hk) (Or.inr h')
    | some data =>
      by_cases ht : data.truthy
      · cases hm : data.get "model" DEFAULT_MODEL with
        | error e => simp [registerDevices, hl, ht, hm, Bind.bind, Except.bind] at h
        | ok model₀ =>
          cases hs2 : data.get "subcircuits" (.list [.dict []]) with
          | error e => simp [registerDevices, hl, ht, hm, hs2, Bind.bind, Except.bind] at h
          | ok subsV =>
            cases hfi : subsV.index0 with
            | error e =>
              simp [registerDevices, hl, ht, hm, hs2, hfi, Bind.bind, Except.bind] at h
            | ok first =>
              cases hc : first.get "config" (.dict []) with
              | error e =>
                simp [registerDevices, hl, ht, hm, hs2, hfi, hc, Bind.bind, Except.bind] at h
              | ok config =>
                cases hhw : config.get "version" (.str "Unknown") with
                | error e =>
                  simp [registerDevices, hl, ht, hm, hs2, hfi, hc, hhw,
                    Bind.bind, Except.bind] at h
                | ok hwv =>
                  cases hsv : data.getN "version" with
                  | error e =>
                    simp [registerDevices, hl, ht, hm, hs2, hfi, hc, hhw, hsv,
                      Bind.bind, Except.bind] at h
                  | ok swv =>
                    cases hrec : registerDevices rest coords
                        (if s ∈ registry then registry else registry ++ [s]) with
                    | error e =>
                      simp [registerDevices, hl, ht, hm, hs2, hfi, hc, hhw, hsv, hrec,
                        Bind.bind, Except.bind] at h
                    | ok pr =>
                      obtain ⟨reg'', tail⟩ := pr
                      simp [registerDevices, hl, ht, hm, hs2, hfi, hc, hhw, hsv, hrec,
                        Bind.bind, Except.bind] at h
                      obtain ⟨h₁, -⟩ := h
                      subst h₁
                      intro k hk
                      rcases ih _ hrec k hk with hk' | hk'
                      · by_cases hsr : s ∈ registry
                        · rw [if_pos hsr] at hk'
                          exact Or.inl hk'
                        · rw [if_neg hsr] at hk'
                          rcases List.mem_append.mp hk' with hk'' | hk''
                          · exact Or.inl hk''
                          · exact Or.inr (by simp [List.mem_singleton.mp hk''])
                      · exact Or.inr (List.mem_cons_of_mem _ hk')
      · have h' : registerDevices rest coords registry = .ok (registry', evs) := by
          simpa [registerDevices, hl, ht] using h
        exact step registry (fun k hk => Or.inl hk) (Or.inr h')

/-- Membership in the removed set. -/
theorem mem_removedSerials {st : RecState} {boards : List String} {s : String} :
    s ∈ removedSerials st boards ↔ s ∈ st.registry ∧ s ∉ boards := by
  simp [removedSerials, List.mem_filter]

/-- Membership in the added set. -/
theorem mem_addedSerials {st : RecState} {boards : List String} {s : String} :
    s ∈ addedSerials st boards ↔ s ∈ boards ∧ s ∉ st.coords.map Prod.fst := by
  simp [addedSerials, List.mem_filter]

/-- Emptiness of the removed set. -/
theorem removedSerials_eq_nil {st : RecState} {boards : List String} :
    removedSerials st boards = [] ↔ ∀ s ∈ st.registry, s ∈ boards := by
  simp [removedSerials, List.filter_eq_nil_iff]

/-- Emptiness of the added set. -/
theorem addedSerials_eq_nil {st : RecState} {boards : List String} :
    addedSerials st boards = [] ↔ ∀ s ∈ boards, s ∈ st.coords.map Prod.fst := by
  simp [addedSerials, List.filter_eq_nil_iff]

/-- The reconciliation run leaves everything untouched exactly when both
diff sets are empty. -/
theorem handle_noop_iff (st : RecState) (env : RecEnv) :
    handleBoardsChange st env = (st, [], true) ↔
      removedSerials st env.boards = [] ∧ addedSerials st env.boards = [] := by
  by_cases hcond : ((removedSerials st env.boards).isEmpty &&
      (addedSerials st env.boards).isEmpty) = true
  · have hre := hcond
    simp only [Bool.and_eq_true, List.isEmpty_iff] at hre
    exact ⟨fun _ => hre, fun _ => by simp [handleBoardsChange, hcond]⟩
  · have hcond' : ((removedSerials st env.boards).isEmpty &&
        (addedSerials st env.boards).isEmpty) = false := by
      revert hcond
      cases ((removedSerials st env.boards).isEmpty && (addedSerials st env.boards).isEmpty) <;>
        simp
    constructor
    · intro h
      exfalso
      rcases hpa : processAdditions env (addedSerials st env.boards)
          (processRemovals (removedSerials st env.boards)
            { st with platformsLoaded := false }).1 with ⟨st₃, evs₃, ok⟩
      cases ok with
      | false =>
        have h1 : handleBoardsChange st env =
            (st₃, RecEvent.unloadPlatforms ::
              ((processRemovals (removedSerials st env.boards)
                { st with platformsLoaded := false }).2 ++ evs₃), false) := by
          simp [handleBoardsChange, hcond', hpa]
        rw [h1] at h
        simp at h
      | true =>
        by_cases hae : (addedSerials st env.boards).isEmpty
        · have hre : (removedSerials st env.boards).isEmpty = false := by
            cases hb : (removedSerials st env.boards).isEmpty with
            | false => rfl
            | true => rw [hb, hae] at hcond'; simp at hcond'
          have h2 : handleBoardsChange st env =
              ({ st₃ with platformsLoaded := true },
               RecEvent.unloadPlatforms ::
                 ((processRemovals (removedSerials st env.boards)
                   { st with platformsLoaded := false }).2 ++ evs₃ ++ [RecEvent.reloadPlatforms]),
               true) := by
            simp [handleBoardsChange, hre, hpa, hae]
          rw [h2] at h
          simp at h
        · have hae' : (addedSerials st env.boards).isEmpty = false := by
            revert hae
            cases (addedSerials st env.boards).isEmpty <;> simp
          cases hreg : registerDevices env.boards st₃.coords st₃.registry with
          | error msg =>
            have h3 : handleBoardsChange st env =
                (st₃, RecEvent.unloadPlatforms ::
                  ((processRemovals (removedSerials st env.boards)
                    { st with platformsLoaded := false }).2 ++ evs₃), false) := by
              simp [handleBoardsChange, hcond', hpa, hae', hreg]
            rw [h3] at h
            simp at h
          | ok pr =>
            obtain ⟨reg', evs₄⟩ := pr
            have h4 : handleBoardsChange st env =
                ({ st₃ with registry := reg', platformsLoaded := true },
                 RecEvent.unloadPlatforms ::
                   ((processRemovals (removedSerials st env.boards)
                     { st with platformsLoaded := false }).2 ++ evs₃ ++ evs₄ ++
                     [RecEvent.reloadPlatforms]),
                 true) := by
              simp [handleBoardsChange, hcond', hpa, hae', hreg]
            rw [h4] at h
            simp at h
    · rintro ⟨hr, ha⟩
      exfalso
      rw [hr, ha] at hcond'
      simp at hcond'

/-- After a completed (non-raising) removal+addition pass, every registry
serial is a discovered board and every discovered board has a coordinator. -/
theorem post_run_no_diff (st : RecState) (env : RecEnv)
    (st₃ : RecState) (evs₃ : List RecEvent)
    (hpa : processAdditions env (addedSerials st env.boards)
        (processRemovals (removedSerials st env.boards)
          { st with platformsLoaded := false }).1 = (st₃, evs₃, true)) :
    (∀ s ∈ st₃.registry, s ∈ env.boards) ∧
    (∀ s ∈ env.boards, s ∈ st₃.coords.map Prod.fst) := by
  have hrem := processRemovals_spec (removedSerials st env.boards)
    { st with platformsLoaded := false }
  have hadd := processAdditions_spec env (addedSerials st env.boards)
    (processRemovals (removedSerials st env.boards) { st with platformsLoaded := false }).1
  rw [hpa] at hadd
  obtain ⟨-, ha2, -, ha4, -⟩ := hadd
  obtain ⟨-, hr2, hr3, -⟩ := hrem
  constructor
  · intro s hs
    have hs₂ : s ∈ (processRemovals (removedSerials st env.boards)
        { st with platformsLoaded := false }).1.registry := ha2 ▸ hs
    obtain ⟨hsr, hsnr⟩ := (hr2 s).mp hs₂
    by_contra hnb
    exact hsnr (mem_removedSerials.mpr ⟨hsr, hnb⟩)
  · intro s hs
    have hiff := ha4 rfl s
    by_cases hsa : s ∈ addedSerials st env.boards
    · exact hiff.mpr (Or.inr hsa)
    · have hsc : s ∈ st.coords.map Prod.fst := by
        by_contra hnc
        exact hsa (mem_addedSerials.mpr ⟨hs, hnc⟩)
      have hsnr : s ∉ removedSerials st env.boards := by
        intro habs
        exact (mem_removedSerials.mp habs).2 hs
      exact hiff.mpr (Or.inl ((hr3 s).mpr ⟨hsc, hsnr⟩))

/-! ## Claims -/

/-- C9: the discovery loop's known-serial set affects only logging: for any
two prior known-serial sets and the same API response, the update publishes
the identical switchboard list and the same new known-serial set (exactly
the serials of the response); only the log lines may differ. -/
theorem discovery_known_serials_logging_only
    (k₁ k₂ : List PyVal) (boards : List PyVal)
    (logs : List String) (published newKnown : List PyVal)
    (h : discoveryUpdate k₁ boards = .ok (logs, published, newKnown)) :
    (∃ logs', discoveryUpdate k₂ boards = .ok (logs', published, newKnown)) ∧
    published = boards ∧
    (∀ s, s ∈ newKnown ↔ ∃ b ∈ boards, b.item "serial" = .ok s) := by
  cases hx : extractSerials boards with
  | error e => simp [discoveryUpdate, hx, Bind.bind, Except.bind] at h
  | ok cur =>
    simp [discoveryUpdate, hx, Bind.bind, Except.bind] at h
    obtain ⟨-, h₂, h₃⟩ := h
    subst h₂; subst h₃
    refine ⟨⟨if ((cur.filter fun s => !(pyMem s k₂)).isEmpty) then []
             else ["Discovered new switchboards"], ?_⟩, rfl, ?_⟩
    · simp only [discoveryUpdate, hx, Bind.bind, Except.bind]
    · exact fun s => extractSerials_mem hx s

/-- C9 witness: instantiation at a concrete response and two known sets. -/
theorem discovery_known_serials_logging_only_witness :
    (∃ logs', discoveryUpdate [.str "Z"] c9Boards = .ok (logs', c9Boards, [.str "A"])) ∧
    c9Boards = c9Boards ∧
    (∀ s, s ∈ ([.str "A"] : List PyVal) ↔ ∃ b ∈ c9Boards, b.item "serial" = .ok s) :=
  discovery_known_serials_logging_only [] [.str "Z"] c9Boards
    ["Discovered new switchboards"] c9Boards [.str "A"] rfl

/-- C10: a circuit switch is available exactly when the last update
succeeded, the snapshot is truthy (non-empty), and the snapshot's
`connectivity.connected` is `True`; in particular a snapshot reporting the
board disconnected, or lacking `connectivity`/`connected`, makes the switch
unavailable even though polling succeeds. -/
theorem switch_available_iff (lastSuccess : Bool) (data : PyVal)
    (hwf : availWF data = true) :
    BasisCircuitSwitch.available lastSuccess data =
        .ok (.bool (lastSuccess && data.truthy && specConnected data)) ∧
    (BasisCircuitSwitch.available lastSuccess data = .ok (.bool true) ↔
        lastSuccess = true ∧ data.truthy = true ∧ specConnected data = true) := by
  have key : BasisCircuitSwitch.available lastSuccess data =
      .ok (.bool (lastSuccess && data.truthy && specConnected data)) := by
    cases lastSuccess with
    | false => simp [BasisCircuitSwitch.available]
    | true =>
      cases data with
      | dict kvs =>
        by_cases ht : (PyVal.dict kvs).truthy
        · simp only [availWF] at hwf
          cases hc : kvs.lookup "connectivity" with
          | none =>
            simp [BasisCircuitSwitch.available, ht, PyVal.get, hc, Bind.bind, Except.bind,
              specConnected, PyVal.lookup?]
          | some conn =>
            cases conn with
            | dict ckvs =>
              cases hcc : ckvs.lookup "connected" with
              | none =>
                simp [BasisCircuitSwitch.available, ht, PyVal.get, hc, hcc, Bind.bind,
                  Except.bind, specConnected, PyVal.lookup?]
              | some cv =>
                cases cv <;> simp_all [BasisCircuitSwitch.available, ht, PyVal.get, hc, hcc,
                  Bind.bind, Except.bind, specConnected, PyVal.lookup?]
            | none => simp [hc] at hwf
            | bool b => simp [hc] at hwf
            | int n => simp [hc] at hwf
            | str s => simp [hc] at hwf
            | list xs => simp [hc] at hwf
        · have ht' : (PyVal.dict kvs).truthy = false := by simpa using ht
          simp [BasisCircuitSwitch.available, ht']
      | none => simp [BasisCircuitSwitch.available, PyVal.truthy]
      | bool b => simp [availWF, PyVal.truthy] at hwf; simp [BasisCircuitSwitch.available, PyVal.truthy, hwf]
      | int n => simp [availWF, PyVal.truthy] at hwf; simp [BasisCircuitSwitch.available, PyVal.truthy, hwf]
      | str s => simp [availWF, PyVal.truthy] at hwf; simp [BasisCircuitSwitch.available, PyVal.truthy, hwf]
      | list xs => simp [availWF, PyVal.truthy] at hwf; simp [BasisCircuitSwitch.available, PyVal.truthy, hwf]
  refine ⟨key, ?_⟩
  rw [key]
  constructor
  · intro hh
    have : (lastSuccess && data.truthy && specConnected data) = true := by
      have := congrArg (fun x => x) hh
      cases hb : (lastSuccess && data.truthy && specConnected data) <;> simp [hb] at hh ⊢
    simp at this
    exact ⟨this.1.1, this.1.2, this.2⟩
  · rintro ⟨h1, h2, h3⟩
    simp [h1, h2, h3]

/-- C10 witness: a successful poll of a connected, non-empty snapshot. -/
theorem switch_available_iff_witness :
    BasisCircuitSwitch.available true c10Snapshot =
        .ok (.bool (true && c10Snapshot.truthy && specConnected c10Snapshot)) ∧
    (BasisCircuitSwitch.available true c10Snapshot = .ok (.bool true) ↔
        true = true ∧ c10Snapshot.truthy = true ∧ specConnected c10Snapshot = true) :=
  switch_available_iff true c10Snapshot rfl

/-- For a type-correct energy response, the two chained `get`s succeed and
land on the usage dict, whose fields project as the spec says. -/
theorem energy_usage_chain {r : PyVal} (h : energyRespWF r = true) :
    ∃ ukvs, ((r.get "switchboard" (.dict [])).bind
        fun sw => sw.get "totalSwitchboardEnergyUsage" (.dict [])) = .ok (.dict ukvs) ∧
      ∀ f, ((ukvs.lookup f).getD .none) = specUsageField r f := by
  cases r with
  | dict kvs =>
    simp only [energyRespWF] at h
    cases hsw : kvs.lookup "switchboard" with
    | none =>
      exact ⟨[], by simp [PyVal.get, hsw, Except.bind],
        fun f => by simp [specUsageField, PyVal.lookup?, hsw]⟩
    | some sw =>
      cases sw with
      | dict skvs =>
        cases hu : skvs.lookup "totalSwitchboardEnergyUsage" with
        | none =>
          exact ⟨[], by simp [PyVal.get, hsw, hu, Except.bind],
            fun f => by simp [specUsageField, PyVal.lookup?, hsw, hu]⟩
        | some u =>
          cases u with
          | dict ukvs =>
            exact ⟨ukvs, by simp [PyVal.get, hsw, hu, Except.bind],
              fun f => by simp [specUsageField, PyVal.lookup?, hsw, hu]⟩
          | none => simp [hsw, hu] at h
          | bool b => simp [hsw, hu] at h
          | int n => simp [hsw, hu] at h
          | str s => simp [hsw, hu] at h
          | list xs => simp [hsw, hu] at h
      | none => simp [hsw] at h
      | bool b => simp [hsw] at h
      | int n => simp [hsw] at h
      | str s => simp [hsw] at h
      | list xs => simp [hsw] at h
  | none => simp [energyRespWF] at h
  | bool b => simp [energyRespWF] at h
  | int n => simp [energyRespWF] at h
  | str s => simp [energyRespWF] at h
  | list xs => simp [energyRespWF] at h

/-- C7: each energy poll computes start-of-today (today's date at local
midnight) and start-of-month (day 1 of the month at local midnight) from
the poll-time local time, issues exactly the two range queries with those
start times, and — for type-correct responses — publishes the fixed shape
`{today: {import_kwh, export_kwh}, month: {import_kwh, export_kwh}}` with
values projected from the responses, absent fields becoming `None`. -/
theorem energy_update_two_queries_and_shape
    (serial : String) (now : PyDateTime) (api : String → String → PyVal) :
    (energyUpdateData serial now api).1 =
      [⟨serial, (specStartOfToday now).isoformat⟩,
       ⟨serial, (specStartOfMonth now).isoformat⟩] ∧
    (energyRespWF (api serial (specStartOfToday now).isoformat) = true →
     energyRespWF (api serial (specStartOfMonth now).isoformat) = true →
     (energyUpdateData serial now api).2 = .ok (.dict
       [("today", .dict
          [("import_kwh", specUsageField (api serial (specStartOfToday now).isoformat) "importKwh"),
           ("export_kwh", specUsageField (api serial (specStartOfToday now).isoformat) "exportKwh")]),
        ("month", .dict
          [("import_kwh", specUsageField (api serial (specStartOfMonth now).isoformat) "importKwh"),
           ("export_kwh", specUsageField (api serial (specStartOfMonth now).isoformat) "exportKwh")])])) := by
  have htoday : now.replaceMidnight = specStartOfToday now := rfl
  have hmonth : now.replaceMonthStart = specStartOfMonth now := rfl
  constructor
  · simp [energyUpdateData, htoday, hmonth]
  · intro h₁ h₂
    obtain ⟨tukvs, hchain₁, hproj₁⟩ := energy_usage_chain h₁
    obtain ⟨mukvs, hchain₂, hproj₂⟩ := energy_usage_chain h₂
    cases hga : (api serial (specStartOfToday now).isoformat).get "switchboard" (.dict []) with
    | error e => rw [hga] at hchain₁; simp [Except.bind] at hchain₁
    | ok tsw =>
      rw [hga] at hchain₁; simp [Except.bind] at hchain₁
      cases hgb : (api serial (specStartOfMonth now).isoformat).get "switchboard" (.dict []) with
      | error e => rw [hgb] at hchain₂; simp [Except.bind] at hchain₂
      | ok msw =>
        rw [hgb] at hchain₂; simp [Except.bind] at hchain₂
        simp only [energyUpdateData, htoday, hmonth, Bind.bind, Except.bind,
          hga, hgb, hchain₁, hchain₂]
        simp [PyVal.getN, PyVal.get, hproj₁, hproj₂]

/-- C7 witness: a concrete poll time and concrete responses, one with a
missing export field and one empty. -/
theorem energy_update_two_queries_and_shape_witness :
    (energyUpdateData "S" c7Now c7Api).1 =
      [⟨"S", (specStartOfToday c7Now).isoformat⟩,
       ⟨"S", (specStartOfMonth c7Now).isoformat⟩] ∧
    (energyUpdateData "S" c7Now c7Api).2 = .ok (.dict
       [("today", .dict [("import_kwh", .int 7), ("export_kwh", .none)]),
        ("month", .dict [("import_kwh", .none), ("export_kwh", .none)])]) := by
  have h := energy_update_two_queries_and_shape "S" c7Now c7Api
  refine ⟨h.1, ?_⟩
  have h2 := h.2 (by decide) (by decide)
  rw [h2]
  rfl

/-- C8: every device registered by `_async_register_switchboard_devices`
stores the board's reported model, except that a missing `model` field or a
model equal to `"unknown"` is replaced by `DEFAULT_MODEL` (`"GEN1"`). -/
theorem register_device_model (boards : List String) (coords : List (String × PyVal))
    (registry registry' : List String) (evs : List RecEvent)
    (h : registerDevices boards coords registry = .ok (registry', evs)) :
    ∀ serial model sw hw, RecEvent.registerDevice serial model sw hw ∈ evs →
      ∃ data, coords.lookup serial = some data ∧ data.truthy = true ∧
        specModelPredicate data model := by
  induction boards generalizing registry registry' evs with
  | nil =>
    simp [registerDevices] at h
    obtain ⟨-, h₂⟩ := h
    subst h₂; simp
  | cons s rest ih =>
    cases hl : coords.lookup s with
    | none => exact ih _ _ _ (by simpa [registerDevices, hl] using h)
    | some data =>
      by_cases ht : data.truthy
      · cases hm : data.get "model" DEFAULT_MODEL with
        | error e => simp [registerDevices, hl, ht, hm, Bind.bind, Except.bind] at h
        | ok model₀ =>
          cases hs2 : data.get "subcircuits" (.list [.dict []]) with
          | error e => simp [registerDevices, hl, ht, hm, hs2, Bind.bind, Except.bind] at h
          | ok subsV =>
            cases hf : subsV.index0 with
            | error e =>
              simp [registerDevices, hl, ht, hm, hs2, hf, Bind.bind, Except.bind] at h
            | ok first =>
              cases hc : first.get "config" (.dict []) with
              | error e =>
                simp [registerDevices, hl, ht, hm, hs2, hf, hc, Bind.bind, Except.bind] at h
              | ok config =>
                cases hhw : config.get "version" (.str "Unknown") with
                | error e =>
                  simp [registerDevices, hl, ht, hm, hs2, hf, hc, hhw,
                    Bind.bind, Except.bind] at h
                | ok hwv =>
                  cases hsv : data.getN "version" with
                  | error e =>
                    simp [registerDevices, hl, ht, hm, hs2, hf, hc, hhw, hsv,
                      Bind.bind, Except.bind] at h
                  | ok swv =>
                    cases hrec : registerDevices rest coords
                        (if s ∈ registry then registry else registry ++ [s]) with
                    | error e =>
                      simp [registerDevices, hl, ht, hm, hs2, hf, hc, hhw, hsv, hrec,
                        Bind.bind, Except.bind] at h
                    | ok pr =>
                      obtain ⟨reg'', tail⟩ := pr
                      simp [registerDevices, hl, ht, hm, hs2, hf, hc, hhw, hsv, hrec,
                        Bind.bind, Except.bind] at h
                      obtain ⟨-, h₂⟩ := h
                      subst h₂
                      intro serial model sw hw hmem
                      rcases List.mem_cons.mp hmem with heq | hmem'
                      · obtain ⟨hse, hmo, -, -⟩ := RecEvent.registerDevice.inj heq
                        subst hse
                        refine ⟨data, hl, ht, ?_⟩
                        obtain ⟨kvs, hdata, hmodel₀⟩ := get_ok_inv hm
                        subst hdata
                        cases hml : kvs.lookup "model" with
                        | none =>
                          have : model₀ = DEFAULT_MODEL := by simp [hmodel₀, hml]
                          constructor
                          · intro _
                            rw [hmo, this]
                            simp [DEFAULT_MODEL, PyVal.beq]
                          · intro m hm' _
                            simp [PyVal.lookup?, hml] at hm'
                        | some m =>
                          have hm₀ : model₀ = m := by simp [hmodel₀, hml]
                          subst hm₀
                          constructor
                          · rintro (habs | hunk)
                            · simp [PyVal.lookup?, hml] at habs
                            · simp [PyVal.lookup?, hml] at hunk
                              rw [hmo, hunk]
                              simp [PyVal.beq, DEFAULT_MODEL]
                          · intro m' hm' hne
                            simp [PyVal.lookup?, hml] at hm'
                            subst hm'
                            have hb : PyVal.beq model₀ (.str "unknown") = false := by
                              rcases hbe : PyVal.beq model₀ (.str "unknown") with _ | _
                              · rfl
                              · exact absurd ((beq_str_iff _ _).mp hbe) hne
                            rw [hmo, hb]
                            simp
                      · exact ih _ _ _ hrec serial model sw hw hmem'
      · exact ih _ _ _ (by simpa [registerDevices, hl, ht] using h)

/-- C8 witness: a board whose snapshot reports model `"unknown"` is
registered with model `"GEN1"`. -/
theorem register_device_model_witness :
    ∃ data, ([("A", PyVal.dict [("model", .str "unknown")])]).lookup "A" = some data ∧
      data.truthy = true ∧ specModelPredicate data (.str "GEN1") :=
  register_device_model ["A"] [("A", .dict [("model", .str "unknown")])] [] ["A"]
    [RecEvent.registerDevice "A" (.str "GEN1") .none (.str "Unknown")] rfl
    "A" (.str "GEN1") .none (.str "Unknown") (List.mem_singleton.mpr rfl)

/-- C4 counterexample: the switch `name` getter raises `KeyError: label`
on a snapshot whose matched subcircuit carries a `config` dict without a
`"label"` field — Python evaluates the default argument
`subcircuit["config"]["label"]` of `LABEL_NAME_MAP.get` eagerly — so a
property getter does raise on an absent nested field, contradicting the
claim that absent nested fields always yield a fallback and never raise. -/
theorem switch_name_raises_counterexample :
    BasisCircuitSwitch.name c4Entity c4Snapshot = .error "KeyError: label" := rfl

/-- C4 (amended): the property getters never raise on snapshots in which
every listed subcircuit carries its `serial` and a `config` containing a
string-typed `label` (absent snapshots, live states and leaf fields still
yield `None`/fallbacks) — but, per the counterexample, the `name`/`icon`
getters raise `KeyError` when the matched subcircuit's `config`, or (for
`name`) its `label`, is absent, and they raise `TypeError` when the label
is an unhashable value (a list or a dict), since `dict.get` hashes its
key. -/
theorem getters_nullable_safe (e : CircuitEntity) (lastSuccess : Bool) (data : PyVal)
    (hn : ∃ n : Int, e.subcircuitNumber = .int n)
    (hwf : snapshotWF data = true) :
    ((∃ v, BasisCircuitSwitch.name e data = .ok v) ∧
     (∃ v, BasisCircuitSwitch.icon e data = .ok v) ∧
     (∃ v, BasisCircuitSwitch.is_on e data = .ok v) ∧
     (∃ v, BasisCircuitSwitch.available lastSuccess data = .ok v) ∧
     (∃ v, BasisSubcircuitPowerSensor.name e data = .ok v) ∧
     (∃ v, BasisSubcircuitPowerSensor.native_value e data = .ok v) ∧
     (∃ v, BasisConnectivitySensor.extra_state_attributes data = .ok v)) ∧
    (data.truthy = false →
      BasisCircuitSwitch.is_on e data = .ok .none ∧
      BasisCircuitSwitch.available lastSuccess data = .ok (.bool false) ∧
      BasisSubcircuitPowerSensor.native_value e data = .ok .none ∧
      BasisConnectivitySensor.extra_state_attributes data = .ok (.dict [])) := by
  obtain ⟨n, hnum⟩ := hn
  have hfmt : fmt02d e.subcircuitNumber = .ok (if 0 ≤ n ∧ n < 10 then "0" ++ toString n else toString n) := by
    simp [hnum, fmt02d]
  obtain ⟨r, hr, hrwf⟩ := getSubcircuit_wf data e.subcircuitSerial hwf
  have hconn : data.truthy = true →
      ∃ ckvs, data.get "connectivity" (.dict []) = .ok (.dict ckvs) := by
    intro ht
    obtain ⟨kvs, hk⟩ : ∃ kvs, data = PyVal.dict kvs := by
      cases data with
      | dict kvs => exact ⟨kvs, rfl⟩
      | none => simp [PyVal.truthy] at ht
      | bool b => simp [snapshotWF, PyVal.truthy] at hwf ht; simp [hwf] at ht
      | int n => simp [snapshotWF, PyVal.truthy] at hwf ht; simp [hwf] at ht
      | str s => simp [snapshotWF, PyVal.truthy] at hwf ht; simp [hwf] at ht
      | list xs => simp [snapshotWF, PyVal.truthy] at hwf ht; simp [hwf] at ht
    subst hk
    simp only [snapshotWF, Bool.and_eq_true] at hwf
    obtain ⟨-, hcv⟩ := hwf
    cases hc : kvs.lookup "connectivity" with
    | none => exact ⟨[], by simp [PyVal.get, hc]⟩
    | some cv =>
      cases cv with
      | dict ckvs => exact ⟨ckvs, by simp [PyVal.get, hc]⟩
      | none => rw [hc] at hcv; simp at hcv
      | bool b => rw [hc] at hcv; simp at hcv
      | int n => rw [hc] at hcv; simp at hcv
      | str s => rw [hc] at hcv; simp at hcv
      | list xs => rw [hc] at hcv; simp at hcv
  have havail : ∃ v, BasisCircuitSwitch.available lastSuccess data = .ok v ∧
      (data.truthy = false → v = .bool false) := by
    cases lastSuccess with
    | false => exact ⟨.bool false, by simp [BasisCircuitSwitch.available], fun _ => rfl⟩
    | true =>
      by_cases ht : data.truthy
      · obtain ⟨ckvs, hcg⟩ := hconn ht
        refine ⟨(ckvs.lookup "connected").getD (.bool false), ?_, by simp [ht]⟩
        simp only [BasisCircuitSwitch.available, ht, Bind.bind, Except.bind, hcg]
        simp [PyVal.get]
      · simp only [Bool.not_eq_true] at ht
        exact ⟨.bool false, by simp [BasisCircuitSwitch.available, ht], fun _ => rfl⟩
  have hextra : ∃ v, BasisConnectivitySensor.extra_state_attributes data = .ok v ∧
      (data.truthy = false → v = .dict []) := by
    by_cases ht : data.truthy
    · obtain ⟨ckvs, hcg⟩ := hconn ht
      have hts : ∀ k : String, ((ckvs.lookup k).getD .none).truthy = true →
          ∃ w, (PyVal.dict ckvs).item k = .ok w := by
        intro k hk
        cases hkk : ckvs.lookup k with
        | none => rw [hkk] at hk; simp [PyVal.truthy] at hk
        | some w => exact ⟨w, by simp [PyVal.item, hkk]⟩
      by_cases h1 : ((ckvs.lookup "updatedTimestamp").getD .none).truthy <;>
        by_cases h2 : ((ckvs.lookup "disconnectReason").getD .none).truthy
      · obtain ⟨w1, hw1⟩ := hts _ h1
        obtain ⟨w2, hw2⟩ := hts _ h2
        refine ⟨.dict [("last_seen", w1), ("disconnect_reason", w2)], ?_, by simp [ht]⟩
        simp only [BasisConnectivitySensor.extra_state_attributes, ht, Bind.bind,
          Except.bind, hcg, hw1, hw2, Pure.pure, Except.pure]
        simp [PyVal.getN, PyVal.get, h1, h2]
      · obtain ⟨w1, hw1⟩ := hts _ h1
        refine ⟨.dict [("last_seen", w1)], ?_, by simp [ht]⟩
        simp only [BasisConnectivitySensor.extra_state_attributes, ht, Bind.bind,
          Except.bind, hcg, hw1, Pure.pure, Except.pure]
        simp [PyVal.getN, PyVal.get, h1, h2]
      · obtain ⟨w2, hw2⟩ := hts _ h2
        refine ⟨.dict [("disconnect_reason", w2)], ?_, by simp [ht]⟩
        simp only [BasisConnectivitySensor.extra_state_attributes, ht, Bind.bind,
          Except.bind, hcg, hw2, Pure.pure, Except.pure]
        simp [PyVal.getN, PyVal.get, h1, h2]
      · refine ⟨.dict [], ?_, fun _ => rfl⟩
        simp only [BasisConnectivitySensor.extra_state_attributes, ht, Bind.bind,
          Except.bind, hcg, Pure.pure, Except.pure]
        simp [PyVal.getN, PyVal.get, h1, h2]
    · simp only [Bool.not_eq_true] at ht
      exact ⟨.dict [], by simp [BasisConnectivitySensor.extra_state_attributes, ht], fun _ => rfl⟩
  cases r with
  | none =>
    refine ⟨⟨?_, ?_, ?_, ⟨havail.choose, havail.choose_spec.1⟩, ?_, ?_, ⟨hextra.choose, hextra.choose_spec.1⟩⟩, ?_⟩
    · simp only [BasisCircuitSwitch.name, hr, Bind.bind, Except.bind, hfmt]
      exact ⟨_, rfl⟩
    · simp only [BasisCircuitSwitch.icon, hr, Bind.bind, Except.bind]
      exact ⟨_, rfl⟩
    · simp only [BasisCircuitSwitch.is_on, hr, Bind.bind, Except.bind]
      exact ⟨_, rfl⟩
    · simp only [BasisSubcircuitPowerSensor.name, hr, Bind.bind, Except.bind, hfmt]
      exact ⟨_, rfl⟩
    · simp only [BasisSubcircuitPowerSensor.native_value, hr, Bind.bind, Except.bind]
      exact ⟨_, rfl⟩
    · intro ht
      obtain ⟨va, hva, hvb⟩ := havail
      obtain ⟨ve, hve, hvf⟩ := hextra
      refine ⟨by simp [BasisCircuitSwitch.is_on, hr, Bind.bind, Except.bind], ?_, ?_, ?_⟩
      · rw [hva, hvb ht]
      · simp [BasisSubcircuitPowerSensor.native_value, hr, Bind.bind, Except.bind]
      · rw [hve, hvf ht]
  | some sub =>
    have hswf := hrwf sub rfl
    obtain ⟨htruthy, ⟨ckvs, lv, hcfg, hlv⟩, ⟨lsv, hls, lkvs, hlk⟩⟩ := subcircuitWF_parts hswf
    have hgetl : (PyVal.dict ckvs).get "label" (.str "spare") = .ok (.str lv) := by
      simp [PyVal.get, hlv]
    have hiteml : (PyVal.dict ckvs).item "label" = .ok (.str lv) := by
      simp [PyVal.item, hlv]
    subst hlk
    refine ⟨⟨?_, ?_, ?_, ⟨havail.choose, havail.choose_spec.1⟩, ?_, ?_, ⟨hextra.choose, hextra.choose_spec.1⟩⟩, ?_⟩
    · simp only [BasisCircuitSwitch.name, hr, Bind.bind, Except.bind, htruthy,
        hcfg, hgetl, hiteml, hfmt, strMapGet, if_true]
      exact ⟨_, rfl⟩
    · simp only [BasisCircuitSwitch.icon, hr, Bind.bind, Except.bind, htruthy, hcfg, hgetl,
        strMapGet, if_true]
      exact ⟨_, rfl⟩
    · simp only [BasisCircuitSwitch.is_on, hr, Bind.bind, Except.bind, htruthy, hls, if_true]
      simp only [PyVal.getN, PyVal.get]
      exact ⟨_, rfl⟩
    · simp only [BasisSubcircuitPowerSensor.name, hr, Bind.bind, Except.bind, htruthy,
        hcfg, hgetl, hiteml, hfmt, strMapGet, if_true]
      exact ⟨_, rfl⟩
    · simp only [BasisSubcircuitPowerSensor.native_value, hr, Bind.bind, Except.bind,
        htruthy, hls, if_true]
      simp only [PyVal.getN, PyVal.get]
      exact ⟨_, rfl⟩
    · intro ht
      exfalso
      have hnone : getSubcircuit data e.subcircuitSerial = .ok Option.none := by
        simp [getSubcircuit, ht]
      rw [hnone] at hr
      simp at hr

/-- C4 (amended) witness: a well-shaped connected snapshot with one
labelled subcircuit; all getters succeed. -/
theorem getters_nullable_safe_witness :
    ((∃ v, BasisCircuitSwitch.name c4Entity c4GoodSnapshot = .ok v) ∧
     (∃ v, BasisCircuitSwitch.icon c4Entity c4GoodSnapshot = .ok v) ∧
     (∃ v, BasisCircuitSwitch.is_on c4Entity c4GoodSnapshot = .ok v) ∧
     (∃ v, BasisCircuitSwitch.available true c4GoodSnapshot = .ok v) ∧
     (∃ v, BasisSubcircuitPowerSensor.name c4Entity c4GoodSnapshot = .ok v) ∧
     (∃ v, BasisSubcircuitPowerSensor.native_value c4Entity c4GoodSnapshot = .ok v) ∧
     (∃ v, BasisConnectivitySensor.extra_state_attributes c4GoodSnapshot = .ok v)) ∧
    (c4GoodSnapshot.truthy = false →
      BasisCircuitSwitch.is_on c4Entity c4GoodSnapshot = .ok .none ∧
      BasisCircuitSwitch.available true c4GoodSnapshot = .ok (.bool false) ∧
      BasisSubcircuitPowerSensor.native_value c4Entity c4GoodSnapshot = .ok .none ∧
      BasisConnectivitySensor.extra_state_attributes c4GoodSnapshot = .ok (.dict [])) :=
  getters_nullable_safe c4Entity true c4GoodSnapshot ⟨3, rfl⟩ rfl

/-- Every entity the switch setup's inner loop creates comes from a
subcircuit of the list that passed the spare/standby-locked filter. -/
theorem switchEntitiesFor_provenance (boardSerial : String) (subs : List PyVal)
    (es : List CircuitEntity) (h : switchEntitiesFor boardSerial subs = .ok es) :
    ∀ e ∈ es, ∃ sub ∈ subs, ∃ config label locked,
      sub.get "config" (.dict []) = .ok config ∧
      config.get "label" (.str "") = .ok label ∧
      config.get "standbyLocked" (.bool false) = .ok locked ∧
      label ≠ .str "spare" ∧ locked.truthy = false ∧
      mkCircuitSwitch boardSerial sub = .ok e := by
  induction subs generalizing es with
  | nil =>
    simp [switchEntitiesFor] at h
    subst h; simp
  | cons sub rest ih =>
    cases hc : sub.get "config" (.dict []) with
    | error err => simp [switchEntitiesFor, hc, Bind.bind, Except.bind] at h
    | ok config =>
      cases hlb : config.get "label" (.str "") with
      | error err => simp [switchEntitiesFor, hc, hlb, Bind.bind, Except.bind] at h
      | ok label =>
        cases hlk : config.get "standbyLocked" (.bool false) with
        | error err => simp [switchEntitiesFor, hc, hlb, hlk, Bind.bind, Except.bind] at h
        | ok locked =>
          by_cases hskip : (PyVal.beq label (.str "spare") || locked.truthy) = true
          · have h' : switchEntitiesFor boardSerial rest = .ok es := by
              simpa [switchEntitiesFor, hc, hlb, hlk, hskip, Bind.bind, Except.bind] using h
            intro e he
            obtain ⟨sub', hsub', rest'⟩ := ih es h' e he
            exact ⟨sub', List.mem_cons_of_mem _ hsub', rest'⟩
          · have hskip' : (PyVal.beq label (.str "spare") || locked.truthy) = false :=
              Bool.not_eq_true _ ▸ Bool.of_not_eq_true hskip
            obtain ⟨hbe, hlt⟩ := Bool.or_eq_false_iff.mp hskip'
            cases hmk : mkCircuitSwitch boardSerial sub with
            | error err =>
              simp [switchEntitiesFor, hc, hlb, hlk, hskip', hmk, Bind.bind, Except.bind] at h
            | ok ent =>
              cases hrest : switchEntitiesFor boardSerial rest with
              | error err =>
                simp [switchEntitiesFor, hc, hlb, hlk, hskip', hmk, hrest,
                  Bind.bind, Except.bind] at h
              | ok tail =>
                simp [switchEntitiesFor, hc, hlb, hlk, hskip', hmk, hrest,
                  Bind.bind, Except.bind] at h
                subst h
                intro e he
                rcases List.mem_cons.mp he with he₁ | he₂
                · refine ⟨sub, List.mem_cons_self _ _, config, label, locked,
                    hc, hlb, hlk, ?_, hlt, by rw [hmk, he₁]⟩
                  intro habs
                  rw [habs] at hbe
                  simp [PyVal.beq] at hbe
                · obtain ⟨sub', hsub', rest'⟩ := ih tail hrest e he₂
                  exact ⟨sub', List.mem_cons_of_mem _ hsub', rest'⟩

/-- Per-board provenance for the switch setup. -/
theorem switchSetupForBoard_provenance (boardSerial : String) (data : PyVal)
    (es : List CircuitEntity) (h : switchSetupForBoard boardSerial data = .ok es) :
    ∀ e ∈ es, data.truthy = true ∧
      ∃ subsV subs, data.get "subcircuits" (.list []) = .ok subsV ∧
        subsV.iterElems = .ok subs ∧
        ∃ sub ∈ subs, ∃ config label locked,
          sub.get "config" (.dict []) = .ok config ∧
          config.get "label" (.str "") = .ok label ∧
          config.get "standbyLocked" (.bool false) = .ok locked ∧
          label ≠ .str "spare" ∧ locked.truthy = false ∧
          mkCircuitSwitch boardSerial sub = .ok e := by
  by_cases ht : data.truthy
  · cases hg : data.get "subcircuits" (.list []) with
    | error err => simp [switchSetupForBoard, ht, hg, Bind.bind, Except.bind] at h
    | ok subsV =>
      cases hi : subsV.iterElems with
      | error err => simp [switchSetupForBoard, ht, hg, hi, Bind.bind, Except.bind] at h
      | ok subs =>
        have h' : switchEntitiesFor boardSerial subs = .ok es := by
          simpa [switchSetupForBoard, ht, hg, hi, Bind.bind, Except.bind] using h
        intro e he
        refine ⟨ht, subsV, subs, rfl, hi, ?_⟩
        exact switchEntitiesFor_provenance _ _ _ h' e he
  · have h' : es = [] := by
      simp [switchSetupForBoard, ht] at h
      exact h
    subst h'
    simp

/-- C5: the switch platform setup never creates a switch entity for a
subcircuit whose config label is `"spare"` or whose `standbyLocked` flag is
truthy, regardless of its live state: every created entity traces back to a
subcircuit whose label is not `"spare"` and whose lock flag is falsy (the
filter reads only `config`, never `liveState`). -/
theorem switch_setup_excludes_spare_locked (coords : List (String × PyVal))
    (es : List CircuitEntity) (h : switchSetupEntry coords = .ok es) :
    ∀ e ∈ es, ∃ boardSerial data, (boardSerial, data) ∈ coords ∧ data.truthy = true ∧
      ∃ subsV subs, data.get "subcircuits" (.list []) = .ok subsV ∧
        subsV.iterElems = .ok subs ∧
        ∃ sub ∈ subs, ∃ config label locked,
          sub.get "config" (.dict []) = .ok config ∧
          config.get "label" (.str "") = .ok label ∧
          config.get "standbyLocked" (.bool false) = .ok locked ∧
          label ≠ .str "spare" ∧ locked.truthy = false ∧
          mkCircuitSwitch boardSerial sub = .ok e := by
  induction coords generalizing es with
  | nil =>
    simp [switchSetupEntry] at h
    subst h; simp
  | cons p rest ih =>
    obtain ⟨boardSerial, data⟩ := p
    cases hb : switchSetupForBoard boardSerial data with
    | error err => simp [switchSetupEntry, hb, Bind.bind, Except.bind] at h
    | ok here =>
      cases hr : switchSetupEntry rest with
      | error err => simp [switchSetupEntry, hb, hr, Bind.bind, Except.bind] at h
      | ok tail =>
        simp [switchSetupEntry, hb, hr, Bind.bind, Except.bind] at h
        subst h
        intro e he
        rcases List.mem_append.mp he with he₁ | he₂
        · obtain ⟨ht, rest'⟩ := switchSetupForBoard_provenance _ _ _ hb e he₁
          exact ⟨boardSerial, data, List.mem_cons_self _ _, ht, rest'⟩
        · obtain ⟨b', d', hmem, rest'⟩ := ih tail hr e he₂
          exact ⟨b', d', List.mem_cons_of_mem _ hmem, rest'⟩

/-- C5 witness: of three subcircuits (spare, standby-locked, ordinary) only
the ordinary one yields a switch, and the theorem traces it back. -/
theorem switch_setup_excludes_spare_locked_witness :
    ∃ boardSerial data, (boardSerial, data) ∈ c5Coords ∧ data.truthy = true ∧
      ∃ subsV subs, data.get "subcircuits" (.list []) = .ok subsV ∧
        subsV.iterElems = .ok subs ∧
        ∃ sub ∈ subs, ∃ config label locked,
          sub.get "config" (.dict []) = .ok config ∧
          config.get "label" (.str "") = .ok label ∧
          config.get "standbyLocked" (.bool false) = .ok locked ∧
          label ≠ .str "spare" ∧ locked.truthy = false ∧
          mkCircuitSwitch boardSerial sub = .ok c5Entity :=
  switch_setup_excludes_spare_locked c5Coords [c5Entity] rfl c5Entity
    (List.mem_singleton.mpr rfl)

/-- A well-shaped board entry is a dict whose connectivity projection chain
evaluates without raising, to the spec-worded `connected` default. -/
theorem boardEntryWF_chain {b : PyVal} (h : boardEntryWF b = true) :
    (∃ kvs, b = .dict kvs) ∧
      ((b.get "connectivity" (.dict [])).bind fun c => c.get "connected" (.bool false)) =
        .ok (specBoardConnected b) := by
  cases b with
  | dict kvs =>
    refine ⟨⟨kvs, rfl⟩, ?_⟩
    simp only [boardEntryWF] at h
    cases hc : kvs.lookup "connectivity" with
    | none =>
      simp [PyVal.get, hc, Except.bind, specBoardConnected, PyVal.lookup?]
    | some cv =>
      cases cv with
      | dict ckvs =>
        simp [PyVal.get, hc, Except.bind, specBoardConnected, PyVal.lookup?]
      | none => rw [hc] at h; simp at h
      | bool b => rw [hc] at h; simp at h
      | int n => rw [hc] at h; simp at h
      | str s => rw [hc] at h; simp at h
      | list xs => rw [hc] at h; simp at h
  | none => simp [boardEntryWF] at h
  | bool b => simp [boardEntryWF] at h
  | int n => simp [boardEntryWF] at h
  | str s => simp [boardEntryWF] at h
  | list xs => simp [boardEntryWF] at h

/-- Per-site board loop: with all serials present it returns exactly the
spec-worded entries; a missing serial makes it raise. -/
theorem parseSiteBoards_spec (siteId : PyVal) (boards : List PyVal)
    (hwf : ∀ b ∈ boards, boardEntryWF b = true) :
    ((∀ b ∈ boards, (b.lookup? "serial").isSome = true) →
        parseSiteBoards siteId boards = .ok (boards.map (specDiscoveryEntry siteId))) ∧
    ((∃ b ∈ boards, b.lookup? "serial" = Option.none) →
        ∃ msg, parseSiteBoards siteId boards = .error msg) := by
  induction boards with
  | nil => simp [parseSiteBoards]
  | cons b rest ih =>
    have hb := hwf b (List.mem_cons_self _ _)
    obtain ⟨⟨kvs, hk⟩, hchain⟩ := boardEntryWF_chain hb
    have ih' := ih fun x hx => hwf x (List.mem_cons_of_mem _ hx)
    obtain ⟨cg, hcg, hcc⟩ : ∃ cg, b.get "connectivity" (.dict []) = .ok cg ∧
        cg.get "connected" (.bool false) = .ok (specBoardConnected b) := by
      cases hg : b.get "connectivity" (.dict []) with
      | error err => rw [hg] at hchain; simp [Except.bind] at hchain
      | ok cg =>
        rw [hg] at hchain; simp [Except.bind] at hchain
        exact ⟨cg, rfl, hchain⟩
    constructor
    · intro hall
      have hser := hall b (List.mem_cons_self _ _)
      obtain ⟨sv, hsv⟩ := Option.isSome_iff_exists.mp hser
      have hitem : b.item "serial" = .ok sv := by
        subst hk
        simp only [PyVal.lookup?] at hsv
        simp [PyVal.item, hsv]
      have htail := ih'.1 fun x hx => hall x (List.mem_cons_of_mem _ hx)
      simp only [parseSiteBoards, hitem, hcg, hcc, htail, Bind.bind, Except.bind]
      have hentry : specDiscoveryEntry siteId b =
          .dict [("serial", sv), ("site_id", siteId), ("connected", specBoardConnected b)] := by
        simp [specDiscoveryEntry, hsv]
      simp [hentry]
    · rintro ⟨b', hb', hnone⟩
      rcases List.mem_cons.mp hb' with h₁ | h₁
      · subst h₁
        have hitem : b'.item "serial" = .error "KeyError: serial" := by
          subst hk
          simp only [PyVal.lookup?] at hnone
          simp [PyVal.item, hnone]
        exact ⟨"KeyError: serial", by simp [parseSiteBoards, hitem, Bind.bind, Except.bind]⟩
      · cases hser : b.item "serial" with
        | error msg =>
          exact ⟨msg, by simp [parseSiteBoards, hser, Bind.bind, Except.bind]⟩
        | ok sv =>
          obtain ⟨msg, hmsg⟩ := ih'.2 ⟨b', h₁, hnone⟩
          exact ⟨msg, by simp [parseSiteBoards, hser, hcg, hcc, hmsg, Bind.bind, Except.bind]⟩

/-- A well-shaped site is a dict; its id and switchboards projections never
raise, and its iterated boards are `siteBoardsOf`. -/
theorem siteWF_chain {s : PyVal} (h : siteWF s = true) :
    s.getN "id" = .ok ((s.lookup? "id").getD .none) ∧
    (∃ bv, s.get "switchboards" (.list []) = .ok bv ∧ bv.iterElems = .ok (siteBoardsOf s)) ∧
    (∀ b ∈ siteBoardsOf s, boardEntryWF b = true) := by
  cases s with
  | dict kvs =>
    simp only [siteWF] at h
    refine ⟨by simp [PyVal.getN, PyVal.get, PyVal.lookup?], ?_, ?_⟩
    · cases hw : kvs.lookup "switchboards" with
      | none =>
        exact ⟨.list [], by simp [PyVal.get, hw], by simp [PyVal.iterElems, siteBoardsOf, PyVal.lookup?, hw]⟩
      | some bv =>
        cases bv with
        | list bs =>
          exact ⟨.list bs, by simp [PyVal.get, hw], by simp [PyVal.iterElems, siteBoardsOf, PyVal.lookup?, hw]⟩
        | none => rw [hw] at h; simp at h
        | bool b => rw [hw] at h; simp at h
        | int n => rw [hw] at h; simp at h
        | str st => rw [hw] at h; simp at h
        | dict d => rw [hw] at h; simp at h
    · intro b hbm
      simp only [siteBoardsOf, PyVal.lookup?] at hbm
      cases hw : kvs.lookup "switchboards" with
      | none => rw [hw] at hbm; simp at hbm
      | some bv =>
        rw [hw] at hbm h
        cases bv with
        | list bs => exact List.all_eq_true.mp h b hbm
        | none => simp at hbm
        | bool bb => simp at hbm
        | int n => simp at hbm
        | str st => simp at hbm
        | dict d => simp at hbm
  | none => simp [siteWF] at h
  | bool b => simp [siteWF] at h
  | int n => simp [siteWF] at h
  | str st => simp [siteWF] at h
  | list xs => simp [siteWF] at h

/-- Site loop: spec-worded entries when all serials are present, an error
when one is missing. -/
theorem parseSites_spec (sites : List PyVal)
    (hwf : ∀ s ∈ sites, siteWF s = true) :
    ((∀ s ∈ sites, ∀ b ∈ siteBoardsOf s, (b.lookup? "serial").isSome = true) →
        parseSites sites = .ok (sites.foldr
          (fun site acc =>
            ((siteBoardsOf site).map
              (specDiscoveryEntry ((site.lookup? "id").getD .none))) ++ acc) [])) ∧
    ((∃ s ∈ sites, ∃ b ∈ siteBoardsOf s, b.lookup? "serial" = Option.none) →
        ∃ msg, parseSites sites = .error msg) := by
  induction sites with
  | nil => simp [parseSites]
  | cons s rest ih =>
    have hs := hwf s (List.mem_cons_self _ _)
    obtain ⟨hid, ⟨bv, hbv, hbi⟩, hbwf⟩ := siteWF_chain hs
    have ih' := ih fun x hx => hwf x (List.mem_cons_of_mem _ hx)
    have hboards := parseSiteBoards_spec ((s.lookup? "id").getD .none) (siteBoardsOf s) hbwf
    constructor
    · intro hall
      have hhd := hboards.1 (hall s (List.mem_cons_self _ _))
      have htail := ih'.1 fun x hx => hall x (List.mem_cons_of_mem _ hx)
      simp only [parseSites, hid, hbv, hbi, hhd, htail, Bind.bind, Except.bind,
        List.foldr_cons]
    · rintro ⟨s', hs', b', hb', hnone⟩
      rcases List.mem_cons.mp hs' with h₁ | h₁
      · subst h₁
        obtain ⟨msg, hmsg⟩ := hboards.2 ⟨b', hb', hnone⟩
        exact ⟨msg, by simp [parseSites, hid, hbv, hbi, hmsg, Bind.bind, Except.bind]⟩
      · cases hhd : parseSiteBoards ((s.lookup? "id").getD .none) (siteBoardsOf s) with
        | error msg =>
          exact ⟨msg, by simp [parseSites, hid, hbv, hbi, hhd, Bind.bind, Except.bind]⟩
        | ok here =>
          obtain ⟨msg, hmsg⟩ := ih'.2 ⟨s', h₁, b', hb', hnone⟩
          exact ⟨msg, by simp [parseSites, hid, hbv, hbi, hhd, hmsg, Bind.bind, Except.bind]⟩

/-- C6: `get_available_switchboards` tolerates missing optional fields by
defaulting (absent sites list yields `[]`, absent connectivity/connected
yields `connected = False`, absent site id yields a null `site_id`), each
returned entry has exactly the keys `serial`, `site_id`, `connected`, and
the flattening raises exactly when some board entry lacks `"serial"`. -/
theorem discovery_parse_tolerates_missing (r : PyVal) (hwf : discoveryWF r = true) :
    (allBoardsHaveSerial r = true →
        get_available_switchboards r = .ok (specDiscoveryEntries r)) ∧
    (allBoardsHaveSerial r = false →
        ∃ msg, get_available_switchboards r = .error msg) ∧
    (r.lookup? "sites" = Option.none → get_available_switchboards r = .ok []) := by
  obtain ⟨kvs, hk⟩ : ∃ kvs, r = .dict kvs := by
    cases r <;> simp [discoveryWF] at hwf
    exact ⟨_, rfl⟩
  subst hk
  simp only [discoveryWF] at hwf
  have hmain : ∃ sv, (PyVal.dict kvs).get "sites" (.dict []) = .ok sv ∧
      ∃ lv, sv.get "sites" (.list []) = .ok lv ∧
        lv.iterElems = .ok (discoverySitesOf (.dict kvs)) ∧
        (∀ s ∈ discoverySitesOf (.dict kvs), siteWF s = true) := by
    cases hs : kvs.lookup "sites" with
    | none =>
      exact ⟨.dict [], by simp [PyVal.get, hs], .list [],
        by simp [PyVal.get], by simp [PyVal.iterElems, discoverySitesOf, PyVal.lookup?, hs],
        by simp [discoverySitesOf, PyVal.lookup?, hs]⟩
    | some sv =>
      cases sv with
      | dict okvs =>
        refine ⟨.dict okvs, by simp [PyVal.get, hs], ?_⟩
        simp only [hs] at hwf
        cases hi : okvs.lookup "sites" with
        | none =>
          exact ⟨.list [], by simp [PyVal.get, hi],
            by simp [PyVal.iterElems, discoverySitesOf, PyVal.lookup?, hs, hi],
            by simp [discoverySitesOf, PyVal.lookup?, hs, hi]⟩
        | some lv =>
          cases lv with
          | list sites =>
            simp only [hi] at hwf
            refine ⟨.list sites, by simp [PyVal.get, hi],
              by simp [PyVal.iterElems, discoverySitesOf, PyVal.lookup?, hs, hi], ?_⟩
            intro s hsm
            simp only [discoverySitesOf, PyVal.lookup?, hs, hi] at hsm
            exact List.all_eq_true.mp hwf s hsm
          | none => simp only [hi] at hwf; simp at hwf
          | bool b => simp only [hi] at hwf; simp at hwf
          | int n => simp only [hi] at hwf; simp at hwf
          | str st => simp only [hi] at hwf; simp at hwf
          | dict d => simp only [hi] at hwf; simp at hwf
      | none => rw [hs] at hwf; simp at hwf
      | bool b => rw [hs] at hwf; simp at hwf
      | int n => rw [hs] at hwf; simp at hwf
      | str st => rw [hs] at hwf; simp at hwf
      | list xs => rw [hs] at hwf; simp at hwf
  obtain ⟨sv, hsv, lv, hlv, hiter, hsitewf⟩ := hmain
  have hsites := parseSites_spec (discoverySitesOf (.dict kvs)) hsitewf
  refine ⟨?_, ?_, ?_⟩
  · intro hall
    have hall' : ∀ s ∈ discoverySitesOf (.dict kvs), ∀ b ∈ siteBoardsOf s,
        (b.lookup? "serial").isSome = true := by
      intro s hsm b hbm
      have := List.all_eq_true.mp hall s hsm
      exact List.all_eq_true.mp this b hbm
    have hp := hsites.1 hall'
    simp only [get_available_switchboards, hsv, hlv, hiter, hp, Bind.bind, Except.bind]
    rfl
  · intro hfail
    have : ∃ s ∈ discoverySitesOf (.dict kvs), ∃ b ∈ siteBoardsOf s,
        b.lookup? "serial" = Option.none := by
      obtain ⟨s, hsm, hsf⟩ := all_eq_false_exists hfail
      obtain ⟨b, hbm, hbf⟩ := all_eq_false_exists hsf
      exact ⟨s, hsm, b, hbm, Option.not_isSome_iff_eq_none.mp (by simp [hbf])⟩
    obtain ⟨msg, hmsg⟩ := hsites.2 this
    exact ⟨msg, by simp [get_available_switchboards, hsv, hlv, hiter, hmsg,
      Bind.bind, Except.bind]⟩
  · intro hnone
    simp only [PyVal.lookup?] at hnone
    have h₁ : (PyVal.dict kvs).get "sites" (.dict []) = .ok (.dict []) := by
      simp [PyVal.get, hnone]
    simp only [get_available_switchboards, Bind.bind, Except.bind, h₁]
    simp [PyVal.get, PyVal.iterElems, parseSites]

/-- C6 witness: a response with a missing site id and a board without
connectivity parses with the documented defaults. -/
theorem discovery_parse_tolerates_missing_witness :
    (allBoardsHaveSerial c6Response = true →
        get_available_switchboards c6Response = .ok (specDiscoveryEntries c6Response)) ∧
    (allBoardsHaveSerial c6Response = false →
        ∃ msg, get_available_switchboards c6Response = .error msg) ∧
    (c6Response.lookup? "sites" = Option.none →
        get_available_switchboards c6Response = .ok []) :=
  discovery_parse_tolerates_missing c6Response rfl

/-- C1: every reconciliation run computes `removed = R − D` (registered
serials minus discovered serials) and `added = D − P` (discovered serials
minus live-coordinator serials), and the run is a no-op — it returns, with
no events and before unloading platforms — if and only if both sets are
empty. -/
theorem reconcile_diff_sets_and_noop (st : RecState) (env : RecEnv) :
    (∀ s, s ∈ removedSerials st env.boards ↔ s ∈ st.registry ∧ s ∉ env.boards) ∧
    (∀ s, s ∈ addedSerials st env.boards ↔ s ∈ env.boards ∧ s ∉ st.coords.map Prod.fst) ∧
    (handleBoardsChange st env = (st, [], true) ↔
      removedSerials st env.boards = [] ∧ addedSerials st env.boards = []) :=
  ⟨fun _ => mem_removedSerials, fun _ => mem_addedSerials, handle_noop_iff st env⟩

/-- C2: reconciliation is idempotent: after a successful run, a second run
triggered with the same unchanged discovery result computes empty added and
removed sets and performs nothing (no platform unload, no coordinator or
registry change — no events at all). -/
theorem reconcile_idempotent (st : RecState) (env : RecEnv) (st' : RecState)
    (evs : List RecEvent) (h : handleBoardsChange st env = (st', evs, true)) :
    handleBoardsChange st' env = (st', [], true) ∧
    removedSerials st' env.boards = [] ∧ addedSerials st' env.boards = [] := by
  have key : removedSerials st' env.boards = [] ∧ addedSerials st' env.boards = [] := by
    by_cases hcond : ((removedSerials st env.boards).isEmpty &&
        (addedSerials st env.boards).isEmpty) = true
    · have h0 : handleBoardsChange st env = (st, [], true) := by
        simp [handleBoardsChange, hcond]
      rw [h0] at h
      have hst : st = st' := congrArg Prod.fst h
      subst hst
      simp only [Bool.and_eq_true, List.isEmpty_iff] at hcond
      exact hcond
    · have hcond' : ((removedSerials st env.boards).isEmpty &&
          (addedSerials st env.boards).isEmpty) = false := by
        revert hcond
        cases ((removedSerials st env.boards).isEmpty &&
          (addedSerials st env.boards).isEmpty) <;> simp
      rcases hpa : processAdditions env (addedSerials st env.boards)
          (processRemovals (removedSerials st env.boards)
            { st with platformsLoaded := false }).1 with ⟨st₃, evs₃, ok⟩
      cases ok with
      | false =>
        have h1 : handleBoardsChange st env =
            (st₃, RecEvent.unloadPlatforms ::
              ((processRemovals (removedSerials st env.boards)
                { st with platformsLoaded := false }).2 ++ evs₃), false) := by
          simp [handleBoardsChange, hcond', hpa]
        rw [h1] at h
        simp at h
      | true =>
        obtain ⟨hreg_sub, hcoords_sup⟩ := post_run_no_diff st env st₃ evs₃ hpa
        by_cases hae : (addedSerials st env.boards).isEmpty
        · have hre : (removedSerials st env.boards).isEmpty = false := by
            cases hb : (removedSerials st env.boards).isEmpty with
            | false => rfl
            | true => rw [hb, hae] at hcond'; simp at hcond'
          have h2 : handleBoardsChange st env =
              ({ st₃ with platformsLoaded := true },
               RecEvent.unloadPlatforms ::
                 ((processRemovals (removedSerials st env.boards)
                   { st with platformsLoaded := false }).2 ++ evs₃ ++ [RecEvent.reloadPlatforms]),
               true) := by
            simp [handleBoardsChange, hre, hpa, hae]
          rw [h2] at h
          have hst : ({ st₃ with platformsLoaded := true } : RecState) = st' :=
            congrArg Prod.fst h
          have hregeq : st'.registry = st₃.registry := by rw [← hst]
          have hcoeq : st'.coords = st₃.coords := by rw [← hst]
          constructor
          · rw [removedSerials_eq_nil]
            intro s hs
            rw [hregeq] at hs
            exact hreg_sub s hs
          · rw [addedSerials_eq_nil]
            intro s hs
            rw [hcoeq]
            exact hcoords_sup s hs
        · have hae' : (addedSerials st env.boards).isEmpty = false := by
            revert hae
            cases (addedSerials st env.boards).isEmpty <;> simp
          cases hreg : registerDevices env.boards st₃.coords st₃.registry with
          | error msg =>
            have h3 : handleBoardsChange st env =
                (st₃, RecEvent.unloadPlatforms ::
                  ((processRemovals (removedSerials st env.boards)
                    { st with platformsLoaded := false }).2 ++ evs₃), false) := by
              simp [handleBoardsChange, hcond', hpa, hae', hreg]
            rw [h3] at h
            simp at h
          | ok pr =>
            obtain ⟨reg', evs₄⟩ := pr
            have h4 : handleBoardsChange st env =
                ({ st₃ with registry := reg', platformsLoaded := true },
                 RecEvent.unloadPlatforms ::
                   ((processRemovals (removedSerials st env.boards)
                     { st with platformsLoaded := false }).2 ++ evs₃ ++ evs₄ ++
                     [RecEvent.reloadPlatforms]),
                 true) := by
              simp [handleBoardsChange, hcond', hpa, hae', hreg]
            rw [h4] at h
            have hst : ({ st₃ with registry := reg', platformsLoaded := true } : RecState) = st' :=
              congrArg Prod.fst h
            have hregeq : st'.registry = reg' := by rw [← hst]
            have hcoeq : st'.coords = st₃.coords := by rw [← hst]
            constructor
            · rw [removedSerials_eq_nil]
              intro s hs
              rw [hregeq] at hs
              rcases registerDevices_registry env.boards st₃.coords st₃.registry hreg s hs with
                hs' | hs'
              · exact hreg_sub s hs'
              · exact hs'
            · rw [addedSerials_eq_nil]
              intro s hs
              rw [hcoeq]
              exact hcoords_sup s hs
  exact ⟨(handle_noop_iff st' env).mpr key, key⟩

/-- C2 witness: a concrete run adds board `"B"`; the second run with the
same discovery result is a no-op. -/
theorem reconcile_idempotent_witness :
    handleBoardsChange c2Result c2Env = (c2Result, [], true) ∧
    removedSerials c2Result c2Env.boards = [] ∧
    addedSerials c2Result c2Env.boards = [] :=
  reconcile_idempotent c2State c2Env c2Result c2Events rfl

/-- C3 counterexample: discovery reports `{"A", "B"}`, board `"B"` is
already set up, and the first refresh of the newly added `"A"` fails.  The
claim says only A's addition is aborted while platforms are still
re-created for the remaining boards; instead the handler aborts after the
platform unload: no reload event is emitted, platforms stay down for `"B"`
as well, and no device re-registration happens in this pass. -/
theorem reconcile_abort_counterexample :
    handleBoardsChange c3State c3Env =
      ({ c3State with platformsLoaded := false }, [RecEvent.unloadPlatforms], false) := rfl

/-- C3 (amended): a failed first refresh of a newly added board aborts the
remainder of the reconciliation pass (surfacing as a raised setup failure,
retried only on a later trigger): platforms are left unloaded and never
re-created in this pass, while removed boards were still fully processed
because removal precedes addition. -/
theorem reconcile_failed_refresh_aborts_pass (st : RecState) (env : RecEnv)
    (st' : RecState) (evs : List RecEvent)
    (h : handleBoardsChange st env = (st', evs, false)) :
    st'.platformsLoaded = false ∧
    RecEvent.reloadPlatforms ∉ evs ∧
    (∀ s ∈ removedSerials st env.boards,
      s ∉ st'.registry ∧ s ∉ st'.coords.map Prod.fst) := by
  by_cases hcond : ((removedSerials st env.boards).isEmpty &&
      (addedSerials st env.boards).isEmpty) = true
  · have h0 : handleBoardsChange st env = (st, [], true) := by
      simp [handleBoardsChange, hcond]
    rw [h0] at h
    have hflag : (true : Bool) = false := congrArg (fun p => p.2.2) h
    simp at hflag
  · have hcond' : ((removedSerials st env.boards).isEmpty &&
        (addedSerials st env.boards).isEmpty) = false := by
      revert hcond
      cases ((removedSerials st env.boards).isEmpty &&
        (addedSerials st env.boards).isEmpty) <;> simp
    rcases hpa : processAdditions env (addedSerials st env.boards)
        (processRemovals (removedSerials st env.boards)
          { st with platformsLoaded := false }).1 with ⟨st₃, evs₃, ok⟩
    have hrem := processRemovals_spec (removedSerials st env.boards)
      { st with platformsLoaded := false }
    have hadd := processAdditions_spec env (addedSerials st env.boards)
      (processRemovals (removedSerials st env.boards) { st with platformsLoaded := false }).1
    rw [hpa] at hadd
    obtain ⟨ha1, ha2, ha3, -, ha5⟩ := hadd
    obtain ⟨hr1, hr2, hr3, hr4⟩ := hrem
    have main : st' = st₃ →
        evs = RecEvent.unloadPlatforms ::
          ((processRemovals (removedSerials st env.boards)
            { st with platformsLoaded := false }).2 ++ evs₃) →
        st'.platformsLoaded = false ∧
        RecEvent.reloadPlatforms ∉ evs ∧
        (∀ s ∈ removedSerials st env.boards,
          s ∉ st'.registry ∧ s ∉ st'.coords.map Prod.fst) := by
      intro hst hevs
      subst hst
      subst hevs
      have hp3 : st'.platformsLoaded =
          (processRemovals (removedSerials st env.boards)
            { st with platformsLoaded := false }).1.platformsLoaded := ha1
      have hreg3 : st'.registry =
          (processRemovals (removedSerials st env.boards)
            { st with platformsLoaded := false }).1.registry := ha2
      have hco3 : ∀ k, k ∈ st'.coords.map Prod.fst →
          k ∈ (processRemovals (removedSerials st env.boards)
            { st with platformsLoaded := false }).1.coords.map Prod.fst ∨
          k ∈ addedSerials st env.boards := ha3
      have hev3 : RecEvent.reloadPlatforms ∉ evs₃ := ha5
      refine ⟨?_, ?_, ?_⟩
      · rw [hp3, hr1]
      · simp only [List.mem_cons, List.mem_append, not_or]
        exact ⟨by simp, hr4, hev3⟩
      · intro s hs
        constructor
        · intro habs
          rw [hreg3] at habs
          exact ((hr2 s).mp habs).2 hs
        · intro habs
          rcases hco3 s habs with habs' | habs'
          · exact ((hr3 s).mp habs').2 hs
          · exact (mem_removedSerials.mp hs).2 (mem_addedSerials.mp habs').1
    cases ok with
    | false =>
      have h1 : handleBoardsChange st env =
          (st₃, RecEvent.unloadPlatforms ::
            ((processRemovals (removedSerials st env.boards)
              { st with platformsLoaded := false }).2 ++ evs₃), false) := by
        simp [handleBoardsChange, hcond', hpa]
      rw [h1] at h
      exact main (congrArg Prod.fst h).symm (congrArg (fun p => p.2.1) h).symm
    | true =>
      by_cases hae : (addedSerials st env.boards).isEmpty
      · have hre : (removedSerials st env.boards).isEmpty = false := by
          cases hb : (removedSerials st env.boards).isEmpty with
          | false => rfl
          | true => rw [hb, hae] at hcond'; simp at hcond'
        have h2 : handleBoardsChange st env =
            ({ st₃ with platformsLoaded := true },
             RecEvent.unloadPlatforms ::
               ((processRemovals (removedSerials st env.boards)
                 { st with platformsLoaded := false }).2 ++ evs₃ ++ [RecEvent.reloadPlatforms]),
             true) := by
          simp [handleBoardsChange, hre, hpa, hae]
        rw [h2] at h
        have hflag : (true : Bool) = false := congrArg (fun p => p.2.2) h
        simp at hflag
      · have hae' : (addedSerials st env.boards).isEmpty = false := by
          revert hae
          cases (addedSerials st env.boards).isEmpty <;> simp
        cases hreg : registerDevices env.boards st₃.coords st₃.registry with
        | error msg =>
          have h3 : handleBoardsChange st env =
              (st₃, RecEvent.unloadPlatforms ::
                ((processRemovals (removedSerials st env.boards)
                  { st with platformsLoaded := false }).2 ++ evs₃), false) := by
            simp [handleBoardsChange, hcond', hpa, hae', hreg]
          rw [h3] at h
          exact main (congrArg Prod.fst h).symm (congrArg (fun p => p.2.1) h).symm
        | ok pr =>
          obtain ⟨reg', evs₄⟩ := pr
          have h4 : handleBoardsChange st env =
              ({ st₃ with registry := reg', platformsLoaded := true },
               RecEvent.unloadPlatforms ::
                 ((processRemovals (removedSerials st env.boards)
                   { st with platformsLoaded := false }).2 ++ evs₃ ++ evs₄ ++
                   [RecEvent.reloadPlatforms]),
               true) := by
            simp [handleBoardsChange, hcond', hpa, hae', hreg]
          rw [h4] at h
          have hflag : (true : Bool) = false := congrArg (fun p => p.2.2) h
          simp at hflag

/-- C3 (amended) witness: the aborted pass of the counterexample input
leaves platforms unloaded, emits no reload, and the (empty) removed set is
vacuously processed. -/
theorem reconcile_failed_refresh_aborts_pass_witness :
    ({ c3State with platformsLoaded := false } : RecState).platformsLoaded = false ∧
    RecEvent.reloadPlatforms ∉ [RecEvent.unloadPlatforms] ∧
    (∀ s ∈ removedSerials c3State c3Env.boards,
      s ∉ ({ c3State with platformsLoaded := false } : RecState).registry ∧
      s ∉ ({ c3State with platformsLoaded := false } : RecState).coords.map Prod.fst) :=
  reconcile_failed_refresh_aborts_pass c3State c3Env
    { c3State with platformsLoaded := false } [RecEvent.unloadPlatforms] rfl

end BasisPanel
